import Mathlib

/-!
Verification of the raveler-exporter label-resolution and slab-assembly
pipeline (janelia-flyem/raveler-exporter, `raveler.go` / `main.go`).

The Go source is shallowly embedded: machine integers become `Nat`/`Int`
with explicit `% 2^w` where overflow matters, Go maps become association
lists with most-recent-insertion-first lookup, fallible code returns
`Except`, and the imperative loops become structurally recursive
functions over the lists of loop indices.
-/

namespace RavelerExporter

/-- Span is (Z, Y, X0, X1) in block coordinates (`raveler.go` line 49,
`type Span [4]int`; `Unpack` names the components z, y, x0, x1). -/
structure Span where
  z : Int
  y : Int
  x0 : Int
  x1 : Int
deriving DecidableEq

/-- A block coordinate triple; in the Go source `block [3]int` holds
block[0] = x, block[1] = y, block[2] = z. -/
structure Block where
  x : Int
  y : Int
  z : Int
deriving DecidableEq

/-- `Span.Less` (`raveler.go` lines 69-86): span is strictly before the
block in (z, y, x1)-lexicographic order against (b.z, b.y, b.x). -/
def Span.Less (s : Span) (b : Block) : Bool :=
  if s.z < b.z then true
  else if s.z > b.z then false
  else if s.y < b.y then true
  else if s.y > b.y then false
  else if s.x1 < b.x then true
  else false

/-- `Span.Includes` (`raveler.go` lines 88-99): the block lies on this
span's (z, y) row and its x is inside the inclusive [x0, x1] run. -/
def Span.Includes (s : Span) (b : Block) : Bool :=
  if s.z ≠ b.z then false
  else if s.y ≠ b.y then false
  else if s.x0 > b.x || s.x1 < b.x then false
  else true

/-- The loop body of `seekSpan` (`raveler.go` lines 109-123), made
structurally recursive on the list suffix `roi.drop i`: the Go loop
reads `roi[curSpanI]`, advances past spans that are `Less` than the
block, and re-checks the bound after each increment. -/
def seekSpanGo (b : Block) : List Span → Nat → Nat × Bool
  | [], i => (i, false)
  | s :: rest, i =>
    if s.Less b then seekSpanGo b rest (i + 1)
    else (i, s.Includes b)

/-- `seekSpan` (`raveler.go` lines 102-124): returns the advanced cursor
and whether the given block is included in the span at that cursor. -/
def seekSpan (b : Block) (roi : List Span) (curSpanI : Nat) : Nat × Bool :=
  if curSpanI ≥ roi.length then (curSpanI, false)
  else seekSpanGo b (roi.drop curSpanI) curSpanI

/-- `zhead` (`raveler.go` lines 126-130): first Z of the slab window
containing z.  The Go `z` is a slice index parsed from a digits-only
filename fragment, hence non-negative, so it is modelled as `Nat`
(Go integer division and `Nat` division agree on non-negatives).
The global `*slabZ` flag is passed explicitly. -/
def zhead (slabZ : Nat) (z : Nat) : Nat :=
  slabZ * (z / slabZ)

/-- The naive, cursor-free ROI membership test the spec describes:
some span with the block's (z, y) covers the block's x. -/
def naiveInROI (roi : List Span) (b : Block) : Bool :=
  roi.any (fun s => s.Includes b)

/-- The forward-cursor scan over a sequence of block queries, threading
the cursor returned by each `seekSpan` call into the next one, exactly
as `transformImages` threads `curSpan` (`raveler.go` lines 405-426). -/
def scanBlocks (roi : List Span) : List Block → Nat → List Bool
  | [], _ => []
  | b :: bs, cur =>
    let r := seekSpan b roi cur
    r.2 :: scanBlocks roi bs r.1

/-- Ascending raster (lexicographic) order on block queries. -/
def blockLE (b b' : Block) : Prop :=
  b.z < b'.z ∨ (b.z = b'.z ∧ (b.y < b'.y ∨ (b.y = b'.y ∧ b.x ≤ b'.x)))

/-- The ROI well-formedness relation between an earlier and a later span
of the list: ascending (z, y, x0) order, and non-overlap when the two
spans lie on the same (z, y) row. -/
def spanOrdered (s t : Span) : Prop :=
  (s.z < t.z ∨ (s.z = t.z ∧ (s.y < t.y ∨ (s.y = t.y ∧ s.x0 ≤ t.x0))))
  ∧ (s.z = t.z → s.y = t.y → s.x1 < t.x0 ∨ t.x1 < s.x0)

/-- The dynamic type of a Go `color.Color` sample, restricted to the
cases the source inspects: `color.Gray16` (uint16 intensity),
`color.NRGBA` and `color.RGBA` (8-bit channels), and a stand-in for
every other concrete color type. -/
inductive GoColor where
  | gray16 (y : Nat)
  | nrgba (r g b a : Nat)
  | rgba (r g b a : Nat)
  | otherColor
deriving DecidableEq

/-- `SuperpixelFormat` (`raveler.go` lines 29-36). -/
inductive SuperpixelFormat where
  | SuperpixelNone
  | Superpixel16Bits
  | Superpixel24Bits
deriving DecidableEq

/-- Result of `getSuperpixelId`: a decoded id, an error value, or the
runtime panic raised by the unchecked type assertion
`c.(color.Gray16)` on a sample that is not a `color.Gray16`. -/
inductive SpId where
  | ok (id : Nat)
  | err (msg : String)
  | typeAssertFail
deriving DecidableEq

/-- `getSuperpixelId` (`raveler.go` lines 136-163).  24-bit decoding is
`id = B; id <<= 8; id |= G; id <<= 8; id |= R` on 8-bit channels; the
16-bit case is the unchecked assertion to `color.Gray16`. -/
def getSuperpixelId (c : GoColor) (format : SuperpixelFormat) : SpId :=
  match format with
  | .Superpixel24Bits =>
    match c with
    | .nrgba r g b _ => .ok ((((b <<< 8) ||| g) <<< 8) ||| r)
    | .rgba r g b _ => .ok ((((b <<< 8) ||| g) <<< 8) ||| r)
    | _ => .err "expected 32-bit RGBA superpixels"
  | .Superpixel16Bits =>
    match c with
    | .gray16 y => .ok y
    | _ => .typeAssertFail
  | .SuperpixelNone => .err "unknown superpixel format"

/-- Is the sample a `color.Gray16`? -/
def isGray16 : GoColor → Bool
  | .gray16 _ => true
  | _ => false

/-- Is the sample one of the two 8-bit RGBA representations the 24-bit
decoder accepts? -/
def isRGBASample : GoColor → Bool
  | .nrgba _ _ _ _ => true
  | .rgba _ _ _ _ => true
  | _ => false

/-- `Superpixel` (`raveler.go` lines 41-44): slice and in-slice label,
both uint32. -/
structure Superpixel where
  slice : Nat
  label : Nat
deriving DecidableEq

/-- One parsed record of the superpixel->segment source:
`slice superpixel segment` (uint32, uint32, uint64). -/
structure SpSegRecord where
  slice : Nat
  sp : Nat
  seg : Nat
deriving DecidableEq

/-- The message of the unresolved-segment fatal error
(`raveler.go` line 227): it interpolates the segment id and the two
source file names, in that order. -/
def unresolvedMsg (seg : Nat) (spFile segFile : String) : String :=
  "Segment (" ++ toString seg ++ ") in " ++ spFile ++ " not found in " ++ segFile

/-- The message of the superpixel-range fatal error
(`raveler.go` line 222). -/
def rangeMsg (linenum : Nat) : String :=
  "Error in line " ++ toString linenum ++ ": superpixel id exceeds 24-bit value!"

/-- The record loop of `processRavelerExport` (`raveler.go` lines
207-237), over already-parsed records: skip superpixel 0, fail on a
superpixel over 24 bits, fail on a segment absent from the
segment->body table, otherwise store `{slice, superpixel} -> body`.
The Go map insert is modelled by consing, with `List.lookup` finding
the most recent insertion first; `linenum` is incremented only after
a record is stored, as in the source. -/
def buildSp2BodyGo (seg2body : List (Nat × Nat)) (spFile segFile : String) :
    List SpSegRecord → List (Superpixel × Nat) → Nat →
    Except String (List (Superpixel × Nat))
  | [], m, _ => .ok m
  | r :: rest, m, linenum =>
    if r.sp = 0 then buildSp2BodyGo seg2body spFile segFile rest m linenum
    else if r.sp > 0xFFFFFF then .error (rangeMsg linenum)
    else
      match seg2body.lookup r.seg with
      | none => .error (unresolvedMsg r.seg spFile segFile)
      | some body =>
        buildSp2BodyGo seg2body spFile segFile rest
          ((⟨r.slice, r.sp⟩, body) :: m) (linenum + 1)

/-- The superpixel->body table built by `processRavelerExport`. -/
def buildSp2Body (seg2body : List (Nat × Nat)) (spFile segFile : String)
    (recs : List SpSegRecord) : Except String (List (Superpixel × Nat)) :=
  buildSp2BodyGo seg2body spFile segFile recs [] 0

/-- The segment recorded by the last superpixel->segment record for the
given (slice, label) key — the entry a Go map holds after all inserts. -/
def lastSegFor (recs : List SpSegRecord) (sl lb : Nat) : Option Nat :=
  (recs.reverse.find? (fun r => r.slice == sl && r.sp == lb)).map (fun r => r.seg)

/-- Characters that `fmt.Sscanf` treats as plain spacing inside one
line (newline is special for `Sscanf` and does not match `%d`). -/
def goScanSpace (c : Char) : Bool :=
  c = ' ' || c = '\t'

/-- Greedily consume a decimal digit run. -/
def takeNatAux : List Char → Nat → Nat × List Char
  | [], acc => (acc, [])
  | c :: cs, acc =>
    if c.isDigit then takeNatAux cs (acc * 10 + (c.toNat - 48))
    else (acc, c :: cs)

/-- Parse one `%d` item: skip spaces, then require at least one digit. -/
def scanNat (cs : List Char) : Option (Nat × List Char) :=
  let cs2 := cs.dropWhile goScanSpace
  match cs2 with
  | [] => none
  | c :: _ => if c.isDigit then some (takeNatAux cs2 0) else none

/-- Model of `fmt.Sscanf(line, "%d %d", &a, &b)` with unsigned 64-bit
targets: two space-separated unsigned integers read from the front of
the line (trailing content, including the newline, is not consumed);
an out-of-range value is a scan error. -/
def sscanf2 (s : String) : Option (Nat × Nat) :=
  match scanNat s.data with
  | none => none
  | some (a, rest) =>
    match scanNat rest with
    | none => none
    | some (b, _) =>
      if a < 2 ^ 64 && b < 2 ^ 64 then some (a, b) else none

/-- The Go skip test `line[0] == ' ' || line[0] == '#'`
(`raveler.go` line 263).  Lines produced by `ReadString` are always
nonempty (they end with the delimiter). -/
def skipLine (l : String) : Bool :=
  l.front = ' ' || l.front = '#'

/-- The read loop of `loadSegBodyMap` (`raveler.go` lines 258-276) over
the list of newline-terminated lines: skip on leading space or '#',
fail on a line whose front is not two unsigned integers, otherwise
store the pair; `linenum` counts stored records only. -/
def loadSegBodyMapGo (filename : String) :
    List String → List (Nat × Nat) → Nat → Except String (List (Nat × Nat))
  | [], m, _ => .ok m
  | line :: rest, m, linenum =>
    if skipLine line then loadSegBodyMapGo filename rest m linenum
    else
      match sscanf2 line with
      | none =>
        .error ("Error loading segment->body map, line " ++ toString linenum
          ++ " in " ++ filename)
      | some (seg, body) =>
        loadSegBodyMapGo filename rest ((seg, body) :: m) (linenum + 1)

/-- `loadSegBodyMap` (`raveler.go` lines 247-279): build the
segment->body table from the lines of the text source. -/
def loadSegBodyMap (lines : List String) (filename : String) :
    Except String (List (Nat × Nat)) :=
  loadSegBodyMapGo filename lines [] 0

/-- Go's `uint64(n)` conversion of a (possibly negative) `int`:
two's-complement reduction modulo 2^64. -/
def u64 (n : Int) : Nat :=
  (n % (2 ^ 64 : Int)).toNat

/-- The body-offset step of `transformImages` (`raveler.go` lines
440-442): `if *bodyoffset != 0 { body += uint64(*bodyoffset) }`, in
uint64 arithmetic. -/
def applyOffset (bodyoffset : Int) (body : Nat) : Nat :=
  if bodyoffset ≠ 0 then (body + u64 bodyoffset) % 2 ^ 64 else body

/-- The label-to-body step of `transformImages` (`raveler.go` lines
430-439): label 0 is body 0 without any lookup; otherwise look up
`{uint32(z), label}`, and substitute body 0 when it is absent (the
recoverable, logged case). -/
def lookupBody (sp2body : List (Superpixel × Nat)) (z label : Nat) : Nat :=
  if label = 0 then 0
  else ((sp2body.lookup ⟨z % 2 ^ 32, label⟩).getD 0)

/-- The flag-derived configuration consumed by one image transform. -/
structure XformCtx where
  sp2body : List (Superpixel × Nat)
  roi : Option (List Span)
  bodyoffset : Int
  roiBlocksize : Nat
  nz : Nat

/-- The complete per-pixel body computation, lookup then offset. -/
def bodyForLabel (ctx : XformCtx) (z label : Nat) : Nat :=
  applyOffset ctx.bodyoffset (lookupBody ctx.sp2body z label)

/-- A decoded superpixel PNG: its bounds start at (0, 0) as Go's PNG
decoder guarantees, `pix` is `img.At`, and `format` is determined once
per image from the image's concrete type (`raveler.go` lines 357-366). -/
structure GoImage where
  nx : Nat
  ny : Nat
  pix : Nat → Nat → GoColor
  format : SuperpixelFormat

/-- How a pixel transform aborts: a decode error value, or the runtime
panic of the unchecked Gray16 assertion. -/
inductive PixFail where
  | decodeErr (msg : String)
  | assertFailed
deriving DecidableEq

/-- Decode one pixel and store its body at buffer position
`zbuf * nxy + i` (`raveler.go` lines 427-443). -/
def storeBody (ctx : XformCtx) (img : GoImage) (z zbuf nxy x y : Nat)
    (buf : List Nat) (i : Nat) : Except PixFail (List Nat) :=
  match getSuperpixelId (img.pix x y) img.format with
  | .err m => .error (.decodeErr m)
  | .typeAssertFail => .error .assertFailed
  | .ok label => .ok (buf.set (zbuf * nxy + i) (bodyForLabel ctx z label))

/-- The inner x loop of `transformImages` (`raveler.go` lines 416-445):
when an ROI is configured the span cursor advances and out-of-ROI
pixels are skipped (their buffer slot keeps its zero), the pixel
counter `i` advances for every pixel either way. -/
def processRowGo (ctx : XformCtx) (img : GoImage) (z zbuf nxy y : Nat) :
    List Nat → List Nat → Nat → Nat → Except PixFail (List Nat × Nat × Nat)
  | [], buf, i, curSpan => .ok (buf, i, curSpan)
  | x :: rest, buf, i, curSpan =>
    match ctx.roi with
    | some spans =>
      let block : Block := ⟨((x / ctx.roiBlocksize : Nat) : Int),
        ((y / ctx.roiBlocksize : Nat) : Int), ((z / ctx.roiBlocksize : Nat) : Int)⟩
      let r := seekSpan block spans curSpan
      if r.2 = false then
        processRowGo ctx img z zbuf nxy y rest buf (i + 1) r.1
      else
        match storeBody ctx img z zbuf nxy x y buf i with
        | .error e => .error e
        | .ok buf2 => processRowGo ctx img z zbuf nxy y rest buf2 (i + 1) r.1
    | none =>
      match storeBody ctx img z zbuf nxy x y buf i with
      | .error e => .error e
      | .ok buf2 => processRowGo ctx img z zbuf nxy y rest buf2 (i + 1) curSpan

/-- The outer y loop of `transformImages` (`raveler.go` lines 414-446):
the pixel counter `i` runs on across rows, the span cursor resets to
`initSpan` at the start of each row. -/
def processImageGo (ctx : XformCtx) (img : GoImage)
    (z zbuf nxy initSpan : Nat) :
    List Nat → List Nat → Nat → Except PixFail (List Nat × Nat)
  | [], buf, i => .ok (buf, i)
  | y :: rest, buf, i =>
    match processRowGo ctx img z zbuf nxy y (List.range img.nx) buf i initSpan with
    | .error e => .error e
    | .ok (buf2, i2, _) => processImageGo ctx img z zbuf nxy initSpan rest buf2 i2

/-- One image's contribution to the layer buffer (`raveler.go` lines
398-446): `zbuf = z % nz`, the initial span cursor is sought once from
the block of the image origin, and every pixel (x, y) is decoded and
stored at `zbuf * nxy + i` in row-major order. -/
def processImage (ctx : XformCtx) (img : GoImage) (buf : List Nat)
    (z : Nat) : Except PixFail (List Nat) :=
  let nxy := img.nx * img.ny
  let zbuf := z % ctx.nz
  let block0 : Block := ⟨((0 / ctx.roiBlocksize : Nat) : Int),
    ((0 / ctx.roiBlocksize : Nat) : Int), ((z / ctx.roiBlocksize : Nat) : Int)⟩
  let initSpan := (seekSpan block0 (ctx.roi.getD []) 0).1
  match processImageGo ctx img z zbuf nxy initSpan (List.range img.ny) buf 0 with
  | .error e => .error e
  | .ok (buf2, _) => .ok buf2

/-- The slab in-plane dimensions and depth (`-slabX -slabY -slabZ`). -/
structure SlabCfg where
  slabX : Nat
  slabY : Nat
  slabZ : Nat
deriving DecidableEq

/-- `binary.LittleEndian.PutUint64(slabBuf[si:si+8], v)`: the eight
bytes v, v>>8, ..., v>>56, each reduced mod 256, at si..si+7. -/
def putUint64LE (buf : List Nat) (si : Nat) (v : Nat) : List Nat :=
  (((((((buf.set si (v % 256)).set (si + 1) ((v >>> 8) % 256)).set
    (si + 2) ((v >>> 16) % 256)).set (si + 3) ((v >>> 24) % 256)).set
    (si + 4) ((v >>> 32) % 256)).set (si + 5) ((v >>> 40) % 256)).set
    (si + 6) ((v >>> 48) % 256)).set (si + 7) ((v >>> 56) % 256)

/-- The x loop of the slab serializer (`raveler.go` lines 489-494):
for each sx the layer voxel at `z*nxy + y*nx + (ox+sx)` is written
little-endian at slab byte offset `z*sxyBytes + sy*sxBytes + sx*8`. -/
def slabPutX (layer : List Nat) (nx nxy sxBytes sxyBytes z y ox sy : Nat) :
    List Nat → List Nat → List Nat
  | [], buf => buf
  | sx :: rest, buf =>
    slabPutX layer nx nxy sxBytes sxyBytes z y ox sy rest
      (putUint64LE buf (z * sxyBytes + sy * sxBytes + sx * 8)
        (layer.getD (z * nxy + y * nx + (ox + sx)) 0))

/-- The y loop of the slab serializer (`raveler.go` lines 486-496). -/
def slabPutY (layer : List Nat) (nx nxy sxBytes sxyBytes z oy ox endX : Nat) :
    List Nat → List Nat → List Nat
  | [], buf => buf
  | sy :: rest, buf =>
    slabPutY layer nx nxy sxBytes sxyBytes z oy ox endX rest
      (slabPutX layer nx nxy sxBytes sxyBytes z (oy + sy) ox sy
        (List.range (endX - ox)) buf)

/-- The z loop of the slab serializer (`raveler.go` lines 485-497). -/
def slabPutZ (layer : List Nat) (nx nxy sxBytes sxyBytes oy ox endX endY : Nat) :
    List Nat → List Nat → List Nat
  | [], buf => buf
  | z :: rest, buf =>
    slabPutZ layer nx nxy sxBytes sxyBytes oy ox endX endY rest
      (slabPutY layer nx nxy sxBytes sxyBytes z oy ox endX
        (List.range (endY - oy)) buf)

/-- One slab's byte buffer, as filled by `writeLayer` (`raveler.go`
lines 463-497) for the tile with minimum corner (ox, oy): a zeroed
buffer of `slabZ * slabY * slabX * 8` bytes, with the clipped tile
serialized into it. -/
def fillSlab (cfg : SlabCfg) (layer : List Nat) (nx ny ox oy : Nat) :
    List Nat :=
  let sxBytes := cfg.slabX * 8
  let sxyBytes := cfg.slabY * sxBytes
  let sxyzBytes := cfg.slabZ * sxyBytes
  let endX := min (ox + cfg.slabX) nx
  let endY := min (oy + cfg.slabY) ny
  slabPutZ layer nx (nx * ny) sxBytes sxyBytes oy ox endX endY
    (List.range cfg.slabZ) (List.replicate sxyzBytes 0)

/-- The tile origins visited by `writeLayer`'s `for o := 0; o < extent;
o += step` loops: the multiples of `step` below `extent`. -/
def tileOrigins (extent step : Nat) : List Nat :=
  (List.range ((extent + step - 1) / step)).map (fun j => j * step)

/-- Outcome of `writeDVID`'s delivery loop against a finite prefix of
the remote's response sequence: delivered after the recorded sleeps,
aborted on a bad status, or still retrying when the recorded
responses run out (the loop itself never gives up on 503s). -/
inductive DvidOutcome where
  | posted (sleeps : List Nat)
  | fatalStatus (code : Nat)
  | retrying (sleeps : List Nat)
deriving DecidableEq

/-- The POST retry loop of `writeDVID` (`raveler.go` lines 534-553):
status 200 returns success; status 503 sleeps `30 + rand.Intn(30)`
seconds and retries; any other status is a fatal error.  The remote's
successive statuses and the PRNG's successive `Intn(30)` draws are
passed as streams. -/
def writeDVIDGo : List Nat → List Nat → DvidOutcome
  | [], _ => .retrying []
  | code :: rest, rnds =>
    if code = 200 then .posted []
    else if code = 503 then
      match writeDVIDGo rest rnds.tail with
      | .posted sl => .posted ((30 + rnds.headD 0) :: sl)
      | .retrying sl => .retrying ((30 + rnds.headD 0) :: sl)
      | .fatalStatus c => .fatalStatus c
    else .fatalStatus code

/-- `writeDVID` (`raveler.go` lines 517-554): in dry-run mode it
returns success right after logging, performing no POST at all;
otherwise it runs the retry loop. -/
def writeDVID (dryrun : Bool) (responses rnds : List Nat) : DvidOutcome :=
  if dryrun then .posted [] else writeDVIDGo responses rnds

/-- The spec scenario's single 2x2 16-bit image at Z=0 with pixel
labels [5, 7, 0, 5] in row-major order. -/
def scenarioImage : GoImage where
  nx := 2
  ny := 2
  pix := fun x y =>
    if y = 0 then (if x = 0 then .gray16 5 else .gray16 7)
    else (if x = 0 then .gray16 0 else .gray16 5)
  format := .Superpixel16Bits

/-- The scenario's segment-body source, one record per line. -/
def scenarioSegLines : List String := ["1 100\n", "2 200\n"]

/-- The scenario's parsed superpixel-segment records {0 5 1, 0 7 2}. -/
def scenarioRecs : List SpSegRecord := [⟨0, 5, 1⟩, ⟨0, 7, 2⟩]

/-- The loaded segment->body table of the scenario. -/
def scenarioSeg2Body : List (Nat × Nat) := [(2, 200), (1, 100)]

/-- The built superpixel->body table of the scenario. -/
def scenarioSp2Body : List (Superpixel × Nat) :=
  [(⟨0, 7⟩, 200), (⟨0, 5⟩, 100)]

instance {ε α : Type} [DecidableEq ε] [DecidableEq α] :
    DecidableEq (Except ε α) := fun a b =>
  match a, b with
  | .ok x, .ok y => decidable_of_iff (x = y) (by simp)
  | .error x, .error y => decidable_of_iff (x = y) (by simp)
  | .ok _, .error _ => isFalse (by simp)
  | .error _, .ok _ => isFalse (by simp)

instance : DecidableRel spanOrdered := fun s t => by
  unfold spanOrdered
  infer_instance

instance : DecidableRel blockLE := fun b b' => by
  unfold blockLE
  infer_instance

theorem span_less_iff {s : Span} {b : Block} :
    s.Less b = true ↔
      (s.z < b.z ∨ (s.z = b.z ∧ (s.y < b.y ∨ (s.y = b.y ∧ s.x1 < b.x)))) := by
  unfold Span.Less
  split_ifs <;> simp <;> omega

theorem span_includes_iff {s : Span} {b : Block} :
    s.Includes b = true ↔ (s.z = b.z ∧ s.y = b.y ∧ s.x0 ≤ b.x ∧ b.x ≤ s.x1) := by
  unfold Span.Includes
  split_ifs <;> simp_all <;> omega

theorem span_less_not_includes {s : Span} {b : Block} (h : s.Less b = true) :
    s.Includes b = false := by
  rw [span_less_iff] at h
  rw [Bool.eq_false_iff]
  intro hc
  rw [span_includes_iff] at hc
  omega

theorem span_less_mono {s : Span} {b b' : Block} (h : s.Less b = true)
    (hbb : blockLE b b') : s.Less b' = true := by
  rw [span_less_iff] at h ⊢
  unfold blockLE at hbb
  omega

theorem seekSpanGo_spec (b : Block) (roi : List Span) :
    ∀ (suffix : List Span) (i : Nat), suffix = roi.drop i → i ≤ roi.length →
      i ≤ (seekSpanGo b suffix i).1 ∧ (seekSpanGo b suffix i).1 ≤ roi.length ∧
      (∀ k s, i ≤ k → k < (seekSpanGo b suffix i).1 → roi[k]? = some s →
        s.Less b = true) ∧
      (∀ s, roi[(seekSpanGo b suffix i).1]? = some s → s.Less b = false) ∧
      ((seekSpanGo b suffix i).2 = true ↔
        ∃ s, roi[(seekSpanGo b suffix i).1]? = some s ∧ s.Includes b = true) := by
  intro suffix
  induction suffix with
  | nil =>
    intro i hdrop hle
    have hlen : roi.length ≤ i := by
      have hdl := congrArg List.length hdrop
      simp [List.length_drop] at hdl
      omega
    have hi : i = roi.length := le_antisymm hle hlen
    have hnone : roi[i]? = none := List.getElem?_eq_none (by omega)
    refine ⟨le_refl _, ?_, ?_, ?_, ?_⟩
    · simpa [seekSpanGo] using hle
    · intro k s hik hk hget
      exfalso
      simp [seekSpanGo] at hk
      omega
    · intro s hs
      simp [seekSpanGo, hnone] at hs
    · simp [seekSpanGo, hnone]
  | cons s rest ih =>
    intro i hdrop hle
    have hilt : i < roi.length := by
      by_contra hge
      rw [List.drop_eq_nil_of_le (by omega)] at hdrop
      exact absurd hdrop (by simp)
    rw [List.drop_eq_getElem_cons hilt] at hdrop
    injection hdrop with hs1 hs2
    have hgets : roi[i]? = some s := by
      simp [List.getElem?_eq_getElem hilt, hs1]
    have hrest : rest = roi.drop (i + 1) := hs2
    by_cases hl : s.Less b = true
    · have hstep : seekSpanGo b (s :: rest) i = seekSpanGo b rest (i + 1) := by
        simp [seekSpanGo, hl]
      obtain ⟨h1, h2, h3, h4, h5⟩ := ih (i + 1) hrest (by omega)
      rw [hstep]
      refine ⟨by omega, h2, ?_, h4, h5⟩
      intro k t hik hk hget
      rcases Nat.eq_or_lt_of_le hik with heq | hlt
      · subst heq
        rw [hgets] at hget
        cases hget
        exact hl
      · exact h3 k t hlt hk hget
    · have hstep1 : (seekSpanGo b (s :: rest) i).1 = i := by
        simp [seekSpanGo, hl]
      have hstep2 : (seekSpanGo b (s :: rest) i).2 = s.Includes b := by
        simp [seekSpanGo, hl]
      refine ⟨by omega, by omega, ?_, ?_, ?_⟩
      · intro k t hik hk
        rw [hstep1] at hk
        omega
      · intro t hget
        rw [hstep1, hgets] at hget
        cases hget
        simpa using hl
      · rw [hstep1, hstep2]
        constructor
        · intro hinc
          exact ⟨s, hgets, hinc⟩
        · rintro ⟨t, hget, hinc⟩
          rw [hgets] at hget
          cases hget
          exact hinc

theorem seekSpan_spec (b : Block) (roi : List Span) (i : Nat)
    (h : i ≤ roi.length) :
    i ≤ (seekSpan b roi i).1 ∧ (seekSpan b roi i).1 ≤ roi.length ∧
    (∀ k s, i ≤ k → k < (seekSpan b roi i).1 → roi[k]? = some s →
      s.Less b = true) ∧
    (∀ s, roi[(seekSpan b roi i).1]? = some s → s.Less b = false) ∧
    ((seekSpan b roi i).2 = true ↔
      ∃ s, roi[(seekSpan b roi i).1]? = some s ∧ s.Includes b = true) := by
  unfold seekSpan
  by_cases hge : i ≥ roi.length
  · have hi : i = roi.length := le_antisymm h hge
    have hnone : roi[i]? = none := List.getElem?_eq_none (by omega)
    simp only [hge, if_true]
    refine ⟨le_refl _, by omega, ?_, ?_, ?_⟩
    · intro k s h1 h2 h3
      exfalso
      omega
    · intro s hs
      rw [hnone] at hs
      exact absurd hs (by simp)
    · simp [hnone]
  · simp only [hge, if_false]
    exact seekSpanGo_spec b roi (roi.drop i) i rfl h

/-- C3: `seekSpan(b, roi, i)` advances the cursor monotonically to the
first index at or after `i` whose span is not `Less` than the block
(or to `roi.length` when all remaining spans are `Less`), and reports
inclusion exactly when the span at the final cursor includes the
block's (z, y, x). -/
theorem C3_seekSpan_first_not_less (b : Block) (roi : List Span) (i : Nat)
    (h : i ≤ roi.length) :
    i ≤ (seekSpan b roi i).1 ∧ (seekSpan b roi i).1 ≤ roi.length ∧
    (∀ k s, i ≤ k → k < (seekSpan b roi i).1 → roi[k]? = some s →
      s.Less b = true) ∧
    (∀ s, roi[(seekSpan b roi i).1]? = some s → s.Less b = false) ∧
    ((seekSpan b roi i).2 = true ↔
      ∃ s, roi[(seekSpan b roi i).1]? = some s ∧ s.Includes b = true) :=
  seekSpan_spec b roi i h

/-- Witness for C3 at a concrete ROI, block, and cursor. -/
theorem C3_seekSpan_first_not_less_witness :
    (1 ≤ [Span.mk 0 0 2 4, Span.mk 0 1 0 3].length) ∧
    (seekSpan (Block.mk 1 1 0) [Span.mk 0 0 2 4, Span.mk 0 1 0 3] 1).1 = 1 ∧
    (seekSpan (Block.mk 1 1 0) [Span.mk 0 0 2 4, Span.mk 0 1 0 3] 1).2 = true := by
  have h := C3_seekSpan_first_not_less (Block.mk 1 1 0)
    [Span.mk 0 0 2 4, Span.mk 0 1 0 3] 1 (by decide)
  exact ⟨by decide, by decide, by decide⟩

theorem seekSpan_cursor_correct (roi : List Span) (b : Block)
    (hsort : roi.Pairwise spanOrdered) (i : Nat) (hi : i ≤ roi.length)
    (hinv : ∀ k s, k < i → roi[k]? = some s → s.Less b = true) :
    (seekSpan b roi i).2 = naiveInROI roi b ∧
    (seekSpan b roi i).1 ≤ roi.length ∧
    (∀ k s, k < (seekSpan b roi i).1 → roi[k]? = some s → s.Less b = true) := by
  obtain ⟨h1, h2, h3, h4, h5⟩ := seekSpan_spec b roi i hi
  have hskip : ∀ k s, k < (seekSpan b roi i).1 → roi[k]? = some s →
      s.Less b = true := by
    intro k s hk hget
    rcases Nat.lt_or_ge k i with hki | hki
    · exact hinv k s hki hget
    · exact h3 k s hki hk hget
  refine ⟨?_, h2, hskip⟩
  cases hb : (seekSpan b roi i).2 with
  | true =>
    obtain ⟨s, hget, hinc⟩ := h5.mp hb
    have hmem : s ∈ roi := by
      obtain ⟨hlt, heq⟩ := List.getElem?_eq_some.mp hget
      exact heq ▸ List.getElem_mem hlt
    unfold naiveInROI
    rw [eq_comm, List.any_eq_true]
    exact ⟨s, hmem, hinc⟩
  | false =>
    unfold naiveInROI
    rw [eq_comm, List.any_eq_false]
    intro s hmem
    obtain ⟨k, hklt, hkeq⟩ := List.getElem_of_mem hmem
    have hget : roi[k]? = some s := by
      rw [List.getElem?_eq_getElem hklt, hkeq]
    simp only [Bool.not_eq_true]
    rcases Nat.lt_trichotomy k (seekSpan b roi i).1 with hlt | heq | hgt
    · exact span_less_not_includes (hskip k s hlt hget)
    · subst heq
      rw [Bool.eq_false_iff]
      intro hc
      exact absurd (h5.mpr ⟨s, hget, hc⟩) (by rw [hb]; simp)
    · have hjlt : (seekSpan b roi i).1 < roi.length := lt_trans hgt hklt
      have hgetj : roi[(seekSpan b roi i).1]? =
          some (roi[(seekSpan b roi i).1]) := List.getElem?_eq_getElem hjlt
      have hnl : (roi[(seekSpan b roi i).1]).Less b = false := h4 _ hgetj
      have hord : spanOrdered (roi[(seekSpan b roi i).1]) s := by
        have hpw := List.pairwise_iff_getElem.mp hsort
        have := hpw (seekSpan b roi i).1 k hjlt hklt hgt
        rwa [hkeq] at this
      rw [Bool.eq_false_iff]
      intro hc
      rw [span_includes_iff] at hc
      have hnl2 : ¬ ((roi[(seekSpan b roi i).1]).Less b = true) := by
        simp [hnl]
      rw [span_less_iff] at hnl2
      obtain ⟨hord1, hord2⟩ := hord
      omega

theorem scanBlocks_eq_naive_aux (roi : List Span)
    (hsort : roi.Pairwise spanOrdered) :
    ∀ (blocks : List Block), blocks.Pairwise blockLE →
    ∀ i, i ≤ roi.length →
      (∀ b ∈ blocks, ∀ k s, k < i → roi[k]? = some s → s.Less b = true) →
      scanBlocks roi blocks i = blocks.map (naiveInROI roi) := by
  intro blocks
  induction blocks with
  | nil =>
    intro _ i _ _
    simp [scanBlocks]
  | cons b bs ih =>
    intro hpw i hi hinv
    obtain ⟨hhead, htail⟩ := List.pairwise_cons.mp hpw
    obtain ⟨hans, hle, hskip⟩ :=
      seekSpan_cursor_correct roi b hsort i hi (hinv b (by simp))
    simp only [scanBlocks, List.map_cons]
    rw [hans]
    congr 1
    exact ih htail _ hle (fun b' hb' k s hk hget =>
      span_less_mono (hskip k s hk hget) (hhead b' hb'))

/-- C4: on a span list that is sorted ascending by (z, y, x0) with
non-overlapping spans at equal (z, y), and block queries issued in
ascending raster order, the forward-cursor scan starting at cursor 0
answers every query exactly like the naive independent membership
test over the whole span list. -/
theorem C4_forward_cursor_refines_naive (roi : List Span)
    (blocks : List Block) (hsort : roi.Pairwise spanOrdered)
    (hblocks : blocks.Pairwise blockLE) :
    scanBlocks roi blocks 0 = blocks.map (naiveInROI roi) :=
  scanBlocks_eq_naive_aux roi hsort blocks hblocks 0 (Nat.zero_le _)
    (by
      intro b _ k s hk _
      exact absurd hk (by omega))

/-- Witness for C4 at a concrete sorted ROI and raster block sequence. -/
theorem C4_forward_cursor_refines_naive_witness :
    ([Span.mk 0 0 1 2, Span.mk 0 1 0 0, Span.mk 1 0 0 5].Pairwise spanOrdered) ∧
    ([Block.mk 0 0 0, Block.mk 1 0 0, Block.mk 2 0 0, Block.mk 0 1 0,
      Block.mk 1 1 0, Block.mk 0 0 1].Pairwise blockLE) ∧
    scanBlocks [Span.mk 0 0 1 2, Span.mk 0 1 0 0, Span.mk 1 0 0 5]
        [Block.mk 0 0 0, Block.mk 1 0 0, Block.mk 2 0 0, Block.mk 0 1 0,
         Block.mk 1 1 0, Block.mk 0 0 1] 0 =
      [Block.mk 0 0 0, Block.mk 1 0 0, Block.mk 2 0 0, Block.mk 0 1 0,
       Block.mk 1 1 0, Block.mk 0 0 1].map
        (naiveInROI [Span.mk 0 0 1 2, Span.mk 0 1 0 0, Span.mk 1 0 0 5]) :=
  ⟨by decide, by decide,
    C4_forward_cursor_refines_naive _ _ (by decide) (by decide)⟩

/-- C5: the Z-window head function is idempotent and brackets z within
its window of the configured depth. -/
theorem C5_zhead_window (slabZ z : Nat) (h : 1 ≤ slabZ) :
    zhead slabZ (zhead slabZ z) = zhead slabZ z ∧
    zhead slabZ z ≤ z ∧ z < zhead slabZ z + slabZ := by
  unfold zhead
  refine ⟨?_, ?_, ?_⟩
  · rw [Nat.mul_div_cancel_left _ (by omega : 0 < slabZ)]
  · calc slabZ * (z / slabZ) = z / slabZ * slabZ := Nat.mul_comm _ _
      _ ≤ z := Nat.div_mul_le_self z slabZ
  · have h1 := Nat.div_add_mod z slabZ
    have h2 : z % slabZ < slabZ := Nat.mod_lt _ (by omega)
    omega

/-- Witness for C5 at slabZ = 32, z = 77. -/
theorem C5_zhead_window_witness :
    (1 ≤ 32) ∧ (zhead 32 (zhead 32 77) = zhead 32 77 ∧
      zhead 32 77 ≤ 77 ∧ 77 < zhead 32 77 + 32) :=
  ⟨by decide, C5_zhead_window 32 77 (by decide)⟩

/-- C10: under 16-bit format the decoder's unchecked `color.Gray16`
assertion panics exactly on non-Gray16 samples; under 24-bit format an
unexpected representation yields an error value, never a panic; and on
Gray16 samples the 16-bit panic branch is unreachable. -/
theorem C10_getSuperpixelId_partiality (c : GoColor) :
    (getSuperpixelId c .Superpixel16Bits = .typeAssertFail ↔ isGray16 c = false)
    ∧ (getSuperpixelId c .Superpixel24Bits ≠ .typeAssertFail)
    ∧ ((∃ msg, getSuperpixelId c .Superpixel24Bits = .err msg) ↔
        isRGBASample c = false)
    ∧ (isGray16 c = true → ∃ id, getSuperpixelId c .Superpixel16Bits = .ok id) := by
  cases c <;> simp [getSuperpixelId, isGray16, isRGBASample]

/-- Witness for C10 on a non-Gray16 sample and a Gray16 sample. -/
theorem C10_getSuperpixelId_partiality_witness :
    (isGray16 (GoColor.rgba 1 2 3 4) = false) ∧
    getSuperpixelId (GoColor.rgba 1 2 3 4) .Superpixel16Bits = .typeAssertFail ∧
    getSuperpixelId (GoColor.gray16 5) .Superpixel16Bits = .ok 5 :=
  ⟨by decide,
    (C10_getSuperpixelId_partiality (GoColor.rgba 1 2 3 4)).1.mpr (by decide),
    by decide⟩

theorem writeDVIDGo_spec :
    ∀ (responses rnds : List Nat), (∀ r ∈ rnds, r < 30) →
      (∀ sl, writeDVIDGo responses rnds = .posted sl →
        ∃ i, i < responses.length ∧ responses[i]? = some 200 ∧
          (∀ k, k < i → responses[k]? = some 503) ∧
          sl.length = i ∧ (∀ t ∈ sl, 30 ≤ t ∧ t ≤ 59))
      ∧ (∀ i : Nat, responses[i]? = some 200 →
          (∀ k, k < i → responses[k]? = some 503) →
          ∃ sl, writeDVIDGo responses rnds = .posted sl)
      ∧ (∀ i : Nat, ∀ c : Nat, responses[i]? = some c → c ≠ 200 → c ≠ 503 →
          (∀ k, k < i → responses[k]? = some 503) →
          writeDVIDGo responses rnds = .fatalStatus c)
      ∧ ((∀ c ∈ responses, c = 503) →
          ∃ sl, writeDVIDGo responses rnds = .retrying sl ∧
            sl.length = responses.length ∧ (∀ t ∈ sl, 30 ≤ t ∧ t ≤ 59)) := by
  intro responses
  induction responses with
  | nil =>
    intro rnds _
    refine ⟨?_, ?_, ?_, ?_⟩
    · intro sl h
      simp [writeDVIDGo] at h
    · intro i h
      simp at h
    · intro i c h
      simp at h
    · intro _
      exact ⟨[], rfl, rfl, by simp⟩
  | cons code rest ih =>
    intro rnds hr
    have hrt : ∀ r ∈ rnds.tail, r < 30 := fun r hm => hr r (List.mem_of_mem_tail hm)
    obtain ⟨ih1, ih2, ih3, ih4⟩ := ih rnds.tail hrt
    have hhead : 30 ≤ 30 + rnds.headD 0 ∧ 30 + rnds.headD 0 ≤ 59 := by
      cases rnds with
      | nil => simp
      | cons r rs =>
        have := hr r (by simp)
        simp
        omega
    by_cases h200 : code = 200
    · subst h200
      have hstep : writeDVIDGo (200 :: rest) rnds = .posted [] := by
        simp [writeDVIDGo]
      refine ⟨?_, ?_, ?_, ?_⟩
      · intro sl h
        rw [hstep] at h
        cases h
        exact ⟨0, by simp, by simp, by omega, rfl, by simp⟩
      · intro i _ _
        exact ⟨[], hstep⟩
      · intro i c hget hc200 hc503 hbefore
        exfalso
        cases i with
        | zero =>
          simp at hget
          exact hc200 hget.symm
        | succ i' =>
          have := hbefore 0 (by omega)
          simp at this
      · intro hall
        exfalso
        have := hall 200 (by simp)
        omega
    · by_cases h503 : code = 503
      · subst h503
        refine ⟨?_, ?_, ?_, ?_⟩
        · intro sl h
          simp only [writeDVIDGo, if_neg (by omega : ¬ (503 = 200)), if_pos rfl] at h
          cases hres : writeDVIDGo rest rnds.tail with
          | posted sl' =>
            rw [hres] at h
            cases h
            obtain ⟨i', hi1, hi2, hi3, hi4, hi5⟩ := ih1 sl' hres
            refine ⟨i' + 1, by simp; omega, by simpa using hi2, ?_, by simp [hi4], ?_⟩
            · intro k hk
              cases k with
              | zero => simp
              | succ k' => simpa using hi3 k' (by omega)
            · intro t ht
              rcases List.mem_cons.mp ht with h1 | h1
              · subst h1
                exact hhead
              · exact hi5 t h1
          | retrying sl' =>
            rw [hres] at h
            cases h
          | fatalStatus c =>
            rw [hres] at h
            cases h
        · intro i hget hbefore
          cases i with
          | zero =>
            simp at hget
          | succ i' =>
            obtain ⟨sl', hsl'⟩ := ih2 i' (by simpa using hget)
              (fun k hk => by simpa using hbefore (k + 1) (by omega))
            exact ⟨(30 + rnds.headD 0) :: sl', by simp [writeDVIDGo, hsl']⟩
        · intro i c hget hc200 hc503 hbefore
          cases i with
          | zero =>
            simp at hget
            exact absurd hget.symm hc503
          | succ i' =>
            have hres := ih3 i' c (by simpa using hget) hc200 hc503
              (fun k hk => by simpa using hbefore (k + 1) (by omega))
            simp [writeDVIDGo, hres]
        · intro hall
          obtain ⟨sl', hs1, hs2, hs3⟩ := ih4 (fun c hm => hall c (by simp [hm]))
          refine ⟨(30 + rnds.headD 0) :: sl', by simp [writeDVIDGo, hs1],
            by simp [hs2], ?_⟩
          intro t ht
          rcases List.mem_cons.mp ht with h1 | h1
          · subst h1
            exact hhead
          · exact hs3 t h1
      · have hstep : writeDVIDGo (code :: rest) rnds = .fatalStatus code := by
          simp [writeDVIDGo, h200, h503]
        refine ⟨?_, ?_, ?_, ?_⟩
        · intro sl h
          rw [hstep] at h
          cases h
        · intro i hget hbefore
          exfalso
          cases i with
          | zero =>
            simp at hget
            exact h200 hget
          | succ i' =>
            have := hbefore 0 (by omega)
            simp at this
            exact h503 this
        · intro i c hget hc200 hc503 hbefore
          cases i with
          | zero =>
            simp at hget
            rw [hstep, hget]
          | succ i' =>
            exfalso
            have := hbefore 0 (by omega)
            simp at this
            exact h503 this
        · intro hall
          exfalso
          exact h503 (hall code (by simp))

/-- C9: the delivery loop succeeds exactly when the remote's status
sequence is a run of 503s followed by a 200, sleeping between 30 and
59 seconds (30 plus an `Intn(30)` draw) before each retry; the first
status that is neither 200 nor 503 aborts fatally; if every recorded
status is 503 the loop is still retrying after all of them; and in
dry-run mode it succeeds at once, independent of any remote response
or random draw. -/
theorem C9_writeDVID_retry (responses rnds : List Nat)
    (hr : ∀ r ∈ rnds, r < 30) :
    (∀ resp2 rnd2, writeDVID true resp2 rnd2 = .posted []) ∧
    (∀ sl, writeDVID false responses rnds = .posted sl →
      ∃ i, i < responses.length ∧ responses[i]? = some 200 ∧
        (∀ k, k < i → responses[k]? = some 503) ∧
        sl.length = i ∧ (∀ t ∈ sl, 30 ≤ t ∧ t ≤ 59)) ∧
    (∀ i : Nat, responses[i]? = some 200 →
      (∀ k, k < i → responses[k]? = some 503) →
      ∃ sl, writeDVID false responses rnds = .posted sl) ∧
    (∀ i : Nat, ∀ c : Nat, responses[i]? = some c → c ≠ 200 → c ≠ 503 →
      (∀ k, k < i → responses[k]? = some 503) →
      writeDVID false responses rnds = .fatalStatus c) ∧
    ((∀ c ∈ responses, c = 503) →
      ∃ sl, writeDVID false responses rnds = .retrying sl ∧
        sl.length = responses.length ∧ (∀ t ∈ sl, 30 ≤ t ∧ t ≤ 59)) := by
  obtain ⟨h1, h2, h3, h4⟩ := writeDVIDGo_spec responses rnds hr
  exact ⟨fun _ _ => rfl, h1, h2, h3, h4⟩

/-- Witness for C9: one 503 followed by a 200, with one PRNG draw. -/
theorem C9_writeDVID_retry_witness :
    (∀ r ∈ [7], r < 30) ∧
    (∃ sl, writeDVID false [503, 200] [7] = .posted sl) ∧
    writeDVID false [503, 200] [7] = .posted [37] :=
  ⟨by decide,
    (C9_writeDVID_retry [503, 200] [7] (by decide)).2.2.1 1 (by decide)
      (by
        intro k hk
        interval_cases k
        decide),
    by decide⟩

theorem lastSegFor_cons (r : SpSegRecord) (rest : List SpSegRecord)
    (sl lb : Nat) :
    lastSegFor (r :: rest) sl lb =
      (match lastSegFor rest sl lb with
       | some s => some s
       | none => if r.slice == sl && r.sp == lb then some r.seg else none) := by
  unfold lastSegFor
  rw [List.reverse_cons, List.find?_append]
  cases hfind : rest.reverse.find? (fun t => t.slice == sl && t.sp == lb) with
  | none =>
    simp only [Option.none_or, Option.map]
    cases hp : (r.slice == sl && r.sp == lb) with
    | true => simp [List.find?, hp]
    | false => simp [List.find?, hp]
  | some t => simp

theorem buildSp2BodyGo_lookup (seg2body : List (Nat × Nat))
    (spFile segFile : String) :
    ∀ (recs : List SpSegRecord) (m : List (Superpixel × Nat)) (ln : Nat)
      (m' : List (Superpixel × Nat)),
      buildSp2BodyGo seg2body spFile segFile recs m ln = .ok m' →
      ∀ sl lb, lb ≠ 0 →
        m'.lookup ⟨sl, lb⟩ =
          (match lastSegFor recs sl lb with
           | some s => seg2body.lookup s
           | none => m.lookup ⟨sl, lb⟩) := by
  intro recs
  induction recs with
  | nil =>
    intro m ln m' h sl lb hlb
    simp [buildSp2BodyGo] at h
    subst h
    simp [lastSegFor]
  | cons r rest ih =>
    intro m ln m' h sl lb hlb
    rw [lastSegFor_cons]
    by_cases hr0 : r.sp = 0
    · simp only [buildSp2BodyGo, if_pos hr0] at h
      have hmatch : (r.slice == sl && r.sp == lb) = false := by
        simp [hr0]
        intro _
        omega
      rw [ih m ln m' h sl lb hlb]
      cases lastSegFor rest sl lb with
      | none => simp [hmatch]
      | some s => simp
    · by_cases hrange : r.sp > 0xFFFFFF
      · simp [buildSp2BodyGo, hr0, hrange] at h
      · simp only [buildSp2BodyGo, if_neg hr0, if_neg hrange] at h
        cases hlook : seg2body.lookup r.seg with
        | none =>
          rw [hlook] at h
          exact absurd h (by simp)
        | some body =>
          rw [hlook] at h
          rw [ih _ _ _ h sl lb hlb]
          cases lastSegFor rest sl lb with
          | some s => simp
          | none =>
            by_cases hps : r.slice = sl ∧ r.sp = lb
            · have hp : (r.slice == sl && r.sp == lb) = true := by
                simp [hps.1, hps.2]
              have hkey : (Superpixel.mk sl lb == Superpixel.mk r.slice r.sp) = true := by
                simp [hps.1, hps.2]
              simp [List.lookup, hkey, hp, hlook]
            · have hp : (r.slice == sl && r.sp == lb) = false := by
                simp
                intro h1 h2
                exact hps ⟨h1, h2⟩
              have hkey : (Superpixel.mk sl lb == Superpixel.mk r.slice r.sp) = false := by
                rw [beq_eq_false_iff_ne]
                intro hc
                injection hc with hc1 hc2
                exact hps ⟨hc1.symm, hc2.symm⟩
              simp [List.lookup, hkey, hp]

theorem buildSp2BodyGo_skip0 (seg2body : List (Nat × Nat))
    (spFile segFile : String) :
    ∀ (recs : List SpSegRecord) (m : List (Superpixel × Nat)) (ln : Nat),
      buildSp2BodyGo seg2body spFile segFile recs m ln =
        buildSp2BodyGo seg2body spFile segFile
          (recs.filter (fun r => r.sp != 0)) m ln := by
  intro recs
  induction recs with
  | nil =>
    intro m ln
    rfl
  | cons r rest ih =>
    intro m ln
    by_cases hr0 : r.sp = 0
    · have hf : (r.sp != 0) = false := by simp [hr0]
      rw [List.filter_cons_of_neg (by simp [hf])]
      simp only [buildSp2BodyGo, if_pos hr0]
      exact ih m ln
    · have hf : (r.sp != 0) = true := by simp [hr0]
      rw [List.filter_cons_of_pos (by simp [hf])]
      simp only [buildSp2BodyGo, if_neg hr0]
      by_cases hrange : r.sp > 0xFFFFFF
      · simp [if_pos hrange]
      · simp only [if_neg hrange]
        cases seg2body.lookup r.seg with
        | none => rfl
        | some body => exact ih _ _

/-- C6 (amended): a record with superpixel 0 is skipped and never
affects the built table; a superpixel over 0xFFFFFF is a fatal range
error; a segment absent from the segment->body table is a fatal error
naming the segment and both source files (the slice is not part of the
message); otherwise (slice, superpixel) is mapped to the segment's
body, the most recent record for a key winning. -/
theorem C6_spseg_record_handling (seg2body : List (Nat × Nat))
    (spFile segFile : String) :
    (∀ (recs : List SpSegRecord) (m : List (Superpixel × Nat)) (ln : Nat),
      buildSp2BodyGo seg2body spFile segFile recs m ln =
        buildSp2BodyGo seg2body spFile segFile
          (recs.filter (fun r => r.sp != 0)) m ln)
    ∧ (∀ (r : SpSegRecord) (rest : List SpSegRecord)
        (m : List (Superpixel × Nat)) (ln : Nat), r.sp > 0xFFFFFF →
        buildSp2BodyGo seg2body spFile segFile (r :: rest) m ln =
          .error (rangeMsg ln))
    ∧ (∀ (r : SpSegRecord) (rest : List SpSegRecord)
        (m : List (Superpixel × Nat)) (ln : Nat),
        r.sp ≠ 0 → ¬ (r.sp > 0xFFFFFF) → seg2body.lookup r.seg = none →
        buildSp2BodyGo seg2body spFile segFile (r :: rest) m ln =
          .error (unresolvedMsg r.seg spFile segFile))
    ∧ (∀ (r : SpSegRecord) (rest : List SpSegRecord)
        (m : List (Superpixel × Nat)) (ln body : Nat),
        r.sp ≠ 0 → ¬ (r.sp > 0xFFFFFF) → seg2body.lookup r.seg = some body →
        buildSp2BodyGo seg2body spFile segFile (r :: rest) m ln =
          buildSp2BodyGo seg2body spFile segFile rest
            ((⟨r.slice, r.sp⟩, body) :: m) (ln + 1))
    ∧ (∀ (recs : List SpSegRecord) (m' : List (Superpixel × Nat)),
        buildSp2Body seg2body spFile segFile recs = .ok m' →
        ∀ sl lb s, lb ≠ 0 → lastSegFor recs sl lb = some s →
          m'.lookup ⟨sl, lb⟩ = seg2body.lookup s) := by
  refine ⟨buildSp2BodyGo_skip0 seg2body spFile segFile, ?_, ?_, ?_, ?_⟩
  · intro r rest m ln hrange
    have hr0 : r.sp ≠ 0 := by omega
    simp [buildSp2BodyGo, hr0, hrange]
  · intro r rest m ln hr0 hrange hlook
    simp [buildSp2BodyGo, hr0, hrange, hlook]
  · intro r rest m ln body hr0 hrange hlook
    simp [buildSp2BodyGo, hr0, hrange, hlook]
  · intro recs m' h sl lb s hlb hlast
    have := buildSp2BodyGo_lookup seg2body spFile segFile recs [] 0 m' h sl lb hlb
    rw [hlast] at this
    exact this

/-- Witness for C6 at the 2^24 record, an unresolved record, and a
stored record. -/
theorem C6_spseg_record_handling_witness :
    ((16777216 : Nat) > 0xFFFFFF) ∧
    buildSp2BodyGo [] "a" "b" [SpSegRecord.mk 0 16777216 1] [] 0 =
      .error (rangeMsg 0) ∧
    buildSp2Body [(1, 100)] "a" "b" [SpSegRecord.mk 0 5 1] =
      .ok [(Superpixel.mk 0 5, 100)] :=
  ⟨by decide,
    (C6_spseg_record_handling [] "a" "b").2.1 (SpSegRecord.mk 0 16777216 1)
      [] [] 0 (by decide),
    by decide⟩

/-- C6 counterexample: two sources that differ only in the failing
record's slice produce the identical unresolved-segment error, so the
fatal error cannot be naming the slice, contrary to the claim. -/
theorem C6_error_not_naming_slice_counterexample :
    buildSp2Body [] "sp.txt" "seg.txt" [SpSegRecord.mk 5 1 9] =
      .error "Segment (9) in sp.txt not found in seg.txt" ∧
    buildSp2Body [] "sp.txt" "seg.txt" [SpSegRecord.mk 6 1 9] =
      .error "Segment (9) in sp.txt not found in seg.txt" ∧
    (5 : Nat) ≠ 6 :=
  ⟨by decide, by decide, by decide⟩

theorem loadSegBodyMapGo_ok_spec (filename : String) :
    ∀ (lines : List String) (m : List (Nat × Nat)) (ln : Nat),
      ((loadSegBodyMapGo filename lines m ln).isOk = true ↔
        ∀ l ∈ lines, skipLine l = true ∨ (sscanf2 l).isSome = true)
      ∧ (∀ m', loadSegBodyMapGo filename lines m ln = .ok m' →
          m' = ((lines.filter (fun l => !skipLine l)).filterMap sscanf2).reverse
            ++ m) := by
  intro lines
  induction lines with
  | nil =>
    intro m ln
    constructor
    · simp [loadSegBodyMapGo, Except.isOk, Except.toBool]
    · intro m' h
      simp [loadSegBodyMapGo] at h
      simp [h]
  | cons line rest ih =>
    intro m ln
    by_cases hskip : skipLine line = true
    · have hstep : loadSegBodyMapGo filename (line :: rest) m ln =
          loadSegBodyMapGo filename rest m ln := by
        simp [loadSegBodyMapGo, hskip]
      have hfil : (line :: rest).filter (fun l => !skipLine l) =
          rest.filter (fun l => !skipLine l) := by
        rw [List.filter_cons_of_neg (by simp [hskip])]
      constructor
      · rw [hstep, (ih m ln).1]
        constructor
        · intro h l hl
          rcases List.mem_cons.mp hl with h1 | h1
          · subst h1
            exact Or.inl hskip
          · exact h l h1
        · intro h l hl
          exact h l (by simp [hl])
      · intro m' h
        rw [hstep] at h
        rw [hfil]
        exact (ih m ln).2 m' h
    · cases hscan : sscanf2 line with
      | none =>
        have hstep : loadSegBodyMapGo filename (line :: rest) m ln =
            .error ("Error loading segment->body map, line " ++ toString ln
              ++ " in " ++ filename) := by
          simp [loadSegBodyMapGo, hskip, hscan]
        constructor
        · rw [hstep]
          simp only [Except.isOk, Except.toBool]
          constructor
          · intro h
            exact absurd h (by simp)
          · intro h
            have := h line (by simp)
            rcases this with h1 | h1
            · exact absurd h1 hskip
            · rw [hscan] at h1
              exact absurd h1 (by simp)
        · intro m' h
          rw [hstep] at h
          exact absurd h (by simp)
      | some pair =>
        have hstep : loadSegBodyMapGo filename (line :: rest) m ln =
            loadSegBodyMapGo filename rest ((pair.1, pair.2) :: m) (ln + 1) := by
          simp [loadSegBodyMapGo, hskip, hscan]
        have hfil : (line :: rest).filter (fun l => !skipLine l) =
            line :: rest.filter (fun l => !skipLine l) := by
          rw [List.filter_cons_of_pos (by simp [hskip])]
        constructor
        · rw [hstep, (ih _ _).1]
          constructor
          · intro h l hl
            rcases List.mem_cons.mp hl with h1 | h1
            · subst h1
              exact Or.inr (by simp [hscan])
            · exact h l h1
          · intro h l hl
            exact h l (by simp [hl])
        · intro m' h
          rw [hstep] at h
          have := (ih _ _).2 m' h
          rw [hfil]
          simp only [List.filterMap_cons, hscan, List.reverse_cons]
          rw [this]
          simp

theorem loadSegBodyMapGo_err_spec (filename : String) :
    ∀ (pre : List String) (bad : String) (post : List String)
      (m : List (Nat × Nat)) (ln : Nat),
      (∀ l ∈ pre, skipLine l = true ∨ (sscanf2 l).isSome = true) →
      skipLine bad = false → sscanf2 bad = none →
      loadSegBodyMapGo filename (pre ++ bad :: post) m ln =
        .error ("Error loading segment->body map, line " ++
          toString (ln + ((pre.filter (fun l => !skipLine l)).filterMap
            sscanf2).length) ++ " in " ++ filename) := by
  intro pre
  induction pre with
  | nil =>
    intro bad post m ln _ hbad1 hbad2
    simp [loadSegBodyMapGo, hbad1, hbad2]
  | cons line rest ih =>
    intro bad post m ln hpre hbad1 hbad2
    have hline := hpre line (by simp)
    by_cases hskip : skipLine line = true
    · have hstep : loadSegBodyMapGo filename ((line :: rest) ++ bad :: post) m ln =
          loadSegBodyMapGo filename (rest ++ bad :: post) m ln := by
        simp [loadSegBodyMapGo, hskip]
      rw [hstep, ih bad post m ln (fun l hl => hpre l (by simp [hl])) hbad1 hbad2]
      rw [List.filter_cons_of_neg (by simp [hskip])]
    · rcases hline with h1 | h1
      · exact absurd h1 hskip
      · cases hscan : sscanf2 line with
        | none =>
          rw [hscan] at h1
          exact absurd h1 (by simp)
        | some pair =>
          have hstep : loadSegBodyMapGo filename ((line :: rest) ++ bad :: post) m ln =
              loadSegBodyMapGo filename (rest ++ bad :: post)
                ((pair.1, pair.2) :: m) (ln + 1) := by
            simp [loadSegBodyMapGo, hskip, hscan]
          rw [hstep,
            ih bad post _ _ (fun l hl => hpre l (by simp [hl])) hbad1 hbad2]
          rw [List.filter_cons_of_pos (by simp [hskip])]
          simp only [List.filterMap_cons, hscan, List.length_cons]
          have : ln + 1 + ((rest.filter (fun l => !skipLine l)).filterMap
              sscanf2).length =
              ln + (((rest.filter (fun l => !skipLine l)).filterMap
                sscanf2).length + 1) := by
            omega
          rw [this]

/-- C7 (amended): the loader skips a line exactly when its first
character is a space or '#' (a bare-newline blank line is not skipped
and is a malformed record); it succeeds exactly when every non-skipped
line starts with two unsigned integers, in which case each parsed line
contributes its segment->body pair; and on the first offending line it
fails naming the source and the count of records parsed so far (not
the physical line number). -/
theorem C7_segbody_line_handling (filename : String) (lines : List String) :
    ((loadSegBodyMap lines filename).isOk = true ↔
      ∀ l ∈ lines, skipLine l = true ∨ (sscanf2 l).isSome = true)
    ∧ (∀ m', loadSegBodyMap lines filename = .ok m' →
        m' = ((lines.filter (fun l => !skipLine l)).filterMap sscanf2).reverse)
    ∧ (∀ pre bad post, lines = pre ++ bad :: post →
        (∀ l ∈ pre, skipLine l = true ∨ (sscanf2 l).isSome = true) →
        skipLine bad = false → sscanf2 bad = none →
        loadSegBodyMap lines filename =
          .error ("Error loading segment->body map, line " ++
            toString ((pre.filter (fun l => !skipLine l)).filterMap
              sscanf2).length ++ " in " ++ filename)) := by
  refine ⟨(loadSegBodyMapGo_ok_spec filename lines [] 0).1, ?_, ?_⟩
  · intro m' h
    have := (loadSegBodyMapGo_ok_spec filename lines [] 0).2 m' h
    simpa using this
  · intro pre bad post hsplit hpre hbad1 hbad2
    unfold loadSegBodyMap
    rw [hsplit]
    have := loadSegBodyMapGo_err_spec filename pre bad post [] 0 hpre hbad1 hbad2
    simpa using this

/-- Witness for C7: a comment line, a good record line, then a
malformed line; the loader reports the count of parsed records (1). -/
theorem C7_segbody_line_handling_witness :
    (∀ l ∈ ["# c\n", "1 2\n"], skipLine l = true ∨ (sscanf2 l).isSome = true) ∧
    loadSegBodyMap ["# c\n", "1 2\n", "3x\n"] "f" =
      .error "Error loading segment->body map, line 1 in f" :=
  ⟨by decide,
    ((C7_segbody_line_handling "f" ["# c\n", "1 2\n", "3x\n"]).2.2
      ["# c\n", "1 2\n"] "3x\n" [] rfl (by decide) (by decide)
      (by decide)).trans (by decide)⟩

/-- C7 counterexample: the blank line (a bare newline) is not skipped —
the loader fails on it with a malformed-record error, where the claim
predicts it is skipped and the load succeeds with an empty mapping. -/
theorem C7_blank_line_counterexample :
    loadSegBodyMap ["\n"] "f" =
      .error "Error loading segment->body map, line 0 in f" ∧
    loadSegBodyMap ["\n"] "f" ≠ .ok [] :=
  ⟨by decide, by decide⟩

theorem range_getD (n k : Nat) (h : k < n) : (List.range n).getD k 0 = k := by
  rw [List.getD_eq_getElem?_getD, List.getElem?_range h]
  rfl

theorem applyOffset_zero_body (off : Int) : applyOffset off 0 = u64 off := by
  unfold applyOffset
  by_cases h : off = 0
  · simp [h, u64]
  · have hlt : u64 off < 2 ^ 64 := by
      unfold u64
      have h1 := Int.emod_nonneg off (by norm_num : (2 ^ 64 : Int) ≠ 0)
      have h2 := Int.emod_lt_of_pos off (by norm_num : (0 : Int) < 2 ^ 64)
      omega
    simp only [if_pos h]
    omega

theorem processRowGo_none_spec (ctx : XformCtx) (img : GoImage)
    (hroi : ctx.roi = none) (z zbuf nxy y : Nat) :
    ∀ (xs : List Nat) (buf : List Nat) (i curSpan : Nat)
      (buf2 : List Nat) (i2 c2 : Nat),
      processRowGo ctx img z zbuf nxy y xs buf i curSpan = .ok (buf2, i2, c2) →
      zbuf * nxy + i + xs.length ≤ buf.length →
      i2 = i + xs.length ∧ buf2.length = buf.length ∧
      (∀ j, j < zbuf * nxy + i → buf2[j]? = buf[j]?) ∧
      (∀ k, k < xs.length → ∃ label,
        getSuperpixelId (img.pix (xs.getD k 0) y) img.format = .ok label ∧
        buf2[zbuf * nxy + i + k]? = some (bodyForLabel ctx z label)) := by
  intro xs
  induction xs with
  | nil =>
    intro buf i curSpan buf2 i2 c2 h hbound
    simp only [processRowGo] at h
    cases h
    refine ⟨by simp, rfl, fun j _ => rfl, ?_⟩
    intro k hk
    exact absurd hk (by simp)
  | cons x rest ih =>
    intro buf i curSpan buf2 i2 c2 h hbound
    simp only [processRowGo, hroi, storeBody] at h
    cases hdec : getSuperpixelId (img.pix x y) img.format with
    | err msg =>
      rw [hdec] at h
      simp at h
    | typeAssertFail =>
      rw [hdec] at h
      simp at h
    | ok label =>
      rw [hdec] at h
      simp only [] at h
      have hblen : (buf.set (zbuf * nxy + i) (bodyForLabel ctx z label)).length =
          buf.length := by
        simp
      obtain ⟨hi2, hlen2, hpres, hchar⟩ := ih _ (i + 1) curSpan buf2 i2 c2 h
        (by
          rw [hblen]
          simp only [List.length_cons] at hbound
          omega)
      have hin : zbuf * nxy + i < buf.length := by
        simp only [List.length_cons] at hbound
        omega
      refine ⟨by simp [hi2]; omega, by rw [hlen2, hblen], ?_, ?_⟩
      · intro j hj
        rw [hpres j (by omega)]
        exact List.getElem?_set_ne (by omega)
      · intro k hk
        cases k with
        | zero =>
          refine ⟨label, by simpa using hdec, ?_⟩
          have := hpres (zbuf * nxy + i) (by omega)
          rw [Nat.add_zero, this]
          exact List.getElem?_set_self hin
        | succ k' =>
          simp only [List.length_cons] at hk
          obtain ⟨label', hd', hv'⟩ := hchar k' (by omega)
          refine ⟨label', by simpa using hd', ?_⟩
          have : zbuf * nxy + (i + 1) + k' = zbuf * nxy + i + (k' + 1) := by
            omega
          rw [← this]
          exact hv'

theorem processImageGo_none_spec (ctx : XformCtx) (img : GoImage)
    (hroi : ctx.roi = none) (z zbuf nxy initSpan : Nat) :
    ∀ (ys : List Nat) (buf : List Nat) (i : Nat) (buf2 : List Nat) (i2 : Nat),
      processImageGo ctx img z zbuf nxy initSpan ys buf i = .ok (buf2, i2) →
      zbuf * nxy + i + ys.length * img.nx ≤ buf.length →
      i2 = i + ys.length * img.nx ∧ buf2.length = buf.length ∧
      (∀ j, j < zbuf * nxy + i → buf2[j]? = buf[j]?) ∧
      (∀ r k, r < ys.length → k < img.nx → ∃ label,
        getSuperpixelId (img.pix k (ys.getD r 0)) img.format = .ok label ∧
        buf2[zbuf * nxy + i + r * img.nx + k]? =
          some (bodyForLabel ctx z label)) := by
  intro ys
  induction ys with
  | nil =>
    intro buf i buf2 i2 h hbound
    simp only [processImageGo] at h
    cases h
    refine ⟨by simp, rfl, fun j _ => rfl, ?_⟩
    intro r k hr _
    exact absurd hr (by simp)
  | cons y rest ih =>
    intro buf i buf2 i2 h hbound
    simp only [List.length_cons, Nat.succ_mul] at hbound
    simp only [processImageGo] at h
    cases hrow : processRowGo ctx img z zbuf nxy y (List.range img.nx) buf i
        initSpan with
    | error e =>
      rw [hrow] at h
      simp at h
    | ok res =>
      rw [hrow] at h
      simp only [] at h
      obtain ⟨bufR, iR, cR⟩ := res
      obtain ⟨hiR, hlenR, hpresR, hcharR⟩ :=
        processRowGo_none_spec ctx img hroi z zbuf nxy y (List.range img.nx)
          buf i initSpan bufR iR cR hrow
          (by
            simp only [List.length_range]
            omega)
      simp only [List.length_range] at hiR
      obtain ⟨hi2, hlen2, hpres2, hchar2⟩ := ih bufR iR buf2 i2 h
        (by
          rw [hlenR, hiR]
          omega)
      refine ⟨?_, by rw [hlen2, hlenR], ?_, ?_⟩
      · rw [hi2, hiR]
        simp only [List.length_cons, Nat.succ_mul]
        omega
      · intro j hj
        rw [hpres2 j (by omega), hpresR j hj]
      · intro r k hr hkx
        cases r with
        | zero =>
          obtain ⟨label, hd, hv⟩ := hcharR k (by simpa using hkx)
          refine ⟨label, ?_, ?_⟩
          · rwa [range_getD img.nx k hkx] at hd
          · have heq : zbuf * nxy + i + 0 * img.nx + k = zbuf * nxy + i + k := by
              omega
            rw [heq, hpres2 (zbuf * nxy + i + k) (by omega)]
            exact hv
        | succ r' =>
          simp only [List.length_cons] at hr
          obtain ⟨label, hd, hv⟩ := hchar2 r' k (by omega) hkx
          refine ⟨label, by simpa using hd, ?_⟩
          have heq : zbuf * nxy + iR + r' * img.nx + k =
              zbuf * nxy + i + (r' + 1) * img.nx + k := by
            rw [hiR]
            simp only [Nat.succ_mul]
            omega
          rw [← heq]
          exact hv

theorem processImage_none_spec (ctx : XformCtx) (img : GoImage)
    (hroi : ctx.roi = none) (buf buf2 : List Nat) (z : Nat)
    (hrun : processImage ctx img buf z = .ok buf2)
    (hbound : (z % ctx.nz) * (img.nx * img.ny) + img.ny * img.nx ≤ buf.length) :
    ∀ rx ry, rx < img.nx → ry < img.ny → ∃ label,
      getSuperpixelId (img.pix rx ry) img.format = .ok label ∧
      buf2[(z % ctx.nz) * (img.nx * img.ny) + ry * img.nx + rx]? =
        some (bodyForLabel ctx z label) := by
  intro rx ry hrx hry
  simp only [processImage] at hrun
  cases hgo : processImageGo ctx img z (z % ctx.nz) (img.nx * img.ny)
      (seekSpan ⟨((0 / ctx.roiBlocksize : Nat) : Int),
        ((0 / ctx.roiBlocksize : Nat) : Int),
        ((z / ctx.roiBlocksize : Nat) : Int)⟩ (ctx.roi.getD []) 0).1
      (List.range img.ny) buf 0 with
  | error e =>
    rw [hgo] at hrun
    simp at hrun
  | ok res =>
    rw [hgo] at hrun
    simp only [] at hrun
    obtain ⟨bufG, iG⟩ := res
    cases hrun
    obtain ⟨_, _, _, hchar⟩ :=
      processImageGo_none_spec ctx img hroi z (z % ctx.nz) (img.nx * img.ny) _
        (List.range img.ny) buf 0 bufG iG hgo
        (by
          simp only [List.length_range]
          have : img.ny * img.nx = img.nx * img.ny := Nat.mul_comm _ _
          omega)
    obtain ⟨label, hd, hv⟩ := hchar ry rx (by simpa using hry) hrx
    refine ⟨label, ?_, ?_⟩
    · rwa [range_getD img.ny ry hry] at hd
    · simpa using hv

/-- C1: under the no-ROI transform, the body stored for every decoded
pixel with nonzero label equals the two-table composition — the body
the segment-body table assigns to the segment the superpixel-segment
records assign to (slice, label) — with the configured offset applied
(in uint64 arithmetic) when one is set. -/
theorem C1_pixel_body_is_table_composition
    (seg2body : List (Nat × Nat)) (spFile segFile : String)
    (recs : List SpSegRecord) (m : List (Superpixel × Nat))
    (img : GoImage) (buf buf2 : List Nat) (z : Nat) (off : Int)
    (bs nz : Nat) (rx ry label s b : Nat)
    (hbuild : buildSp2Body seg2body spFile segFile recs = .ok m)
    (hnz : 1 ≤ nz)
    (hlen : buf.length = img.nx * img.ny * nz)
    (hrun : processImage ⟨m, none, off, bs, nz⟩ img buf z = .ok buf2)
    (hrx : rx < img.nx) (hry : ry < img.ny)
    (hdec : getSuperpixelId (img.pix rx ry) img.format = .ok label)
    (hlabel : label ≠ 0)
    (hseg : lastSegFor recs (z % 2 ^ 32) label = some s)
    (hbody : seg2body.lookup s = some b) :
    buf2[(z % nz) * (img.nx * img.ny) + ry * img.nx + rx]? =
      some (applyOffset off b) := by
  have hbound : (z % nz) * (img.nx * img.ny) + img.ny * img.nx ≤ buf.length := by
    have hmod : z % nz < nz := Nat.mod_lt _ (by omega)
    have h1 : (z % nz) * (img.nx * img.ny) + img.nx * img.ny ≤
        nz * (img.nx * img.ny) := by
      have : (z % nz) + 1 ≤ nz := by omega
      calc (z % nz) * (img.nx * img.ny) + img.nx * img.ny
          = ((z % nz) + 1) * (img.nx * img.ny) := by rw [Nat.succ_mul]
        _ ≤ nz * (img.nx * img.ny) := Nat.mul_le_mul_right _ this
    have h2 : nz * (img.nx * img.ny) = img.nx * img.ny * nz := Nat.mul_comm _ _
    have h3 : img.ny * img.nx = img.nx * img.ny := Nat.mul_comm _ _
    omega
  obtain ⟨label', hd', hv'⟩ := processImage_none_spec ⟨m, none, off, bs, nz⟩
    img rfl buf buf2 z hrun hbound rx ry hrx hry
  have hlab : label' = label := by
    rw [hdec] at hd'
    cases hd'
    rfl
  rw [hv', hlab]
  have hbuild' : buildSp2BodyGo seg2body spFile segFile recs [] 0 = .ok m :=
    hbuild
  have hcomp := buildSp2BodyGo_lookup seg2body spFile segFile recs [] 0 m
    hbuild' (z % 2 ^ 32) label hlabel
  rw [hseg] at hcomp
  have hm : List.lookup (Superpixel.mk (z % 2 ^ 32) label) m =
      List.lookup s seg2body := hcomp
  unfold bodyForLabel lookupBody
  rw [if_neg hlabel, hm, hbody]
  rfl

/-- Witness for C1: the spec scenario — segment-body {1 100, 2 200},
superpixel-segment {0 5 1, 0 7 2}, the 2x2 image with labels
[5, 7, 0, 5] at Z=0 and no offset — yields the body array
[100, 200, 0, 100], with pixel (0,0) checked through the theorem. -/
theorem C1_pixel_body_is_table_composition_witness :
    loadSegBodyMap scenarioSegLines "seg.txt" = .ok scenarioSeg2Body ∧
    buildSp2Body scenarioSeg2Body "sp.txt" "seg.txt" scenarioRecs =
      .ok scenarioSp2Body ∧
    processImage ⟨scenarioSp2Body, none, 0, 32, 1⟩ scenarioImage
      (List.replicate 4 0) 0 = .ok [100, 200, 0, 100] ∧
    ([100, 200, 0, 100] : List Nat)[(0 % 1) * (scenarioImage.nx *
      scenarioImage.ny) + 0 * scenarioImage.nx + 0]? =
      some (applyOffset 0 100) :=
  ⟨by decide, by decide, by decide,
    C1_pixel_body_is_table_composition scenarioSeg2Body "sp.txt" "seg.txt"
      scenarioRecs scenarioSp2Body scenarioImage (List.replicate 4 0)
      [100, 200, 0, 100] 0 0 32 1 0 0 5 1 100
      (by decide) (by decide) (by decide) (by decide) (by decide) (by decide)
      (by decide) (by decide) (by decide) (by decide)⟩

/-- C2 (amended): a label-0 pixel is never looked up — its stored body
does not depend on the tables at all — but the configured offset is
applied to it like to every other pixel, so it is stored as
uint64(bodyOffset): 0 exactly when no offset is configured. -/
theorem C2_label0_pixel_stores_offset (ctx : XformCtx) (img : GoImage)
    (buf buf2 : List Nat) (z rx ry : Nat)
    (hroi : ctx.roi = none)
    (hbound : (z % ctx.nz) * (img.nx * img.ny) + img.ny * img.nx ≤ buf.length)
    (hrun : processImage ctx img buf z = .ok buf2)
    (hrx : rx < img.nx) (hry : ry < img.ny)
    (hdec : getSuperpixelId (img.pix rx ry) img.format = .ok 0) :
    buf2[(z % ctx.nz) * (img.nx * img.ny) + ry * img.nx + rx]? =
      some (u64 ctx.bodyoffset) ∧
    (∀ m2 : List (Superpixel × Nat),
      bodyForLabel { ctx with sp2body := m2 } z 0 = u64 ctx.bodyoffset) ∧
    (ctx.bodyoffset = 0 → u64 ctx.bodyoffset = 0) := by
  have hbody : ∀ m2 : List (Superpixel × Nat),
      bodyForLabel { ctx with sp2body := m2 } z 0 = u64 ctx.bodyoffset := by
    intro m2
    unfold bodyForLabel lookupBody
    rw [if_pos rfl]
    exact applyOffset_zero_body ctx.bodyoffset
  obtain ⟨label', hd', hv'⟩ := processImage_none_spec ctx img hroi buf buf2 z
    hrun hbound rx ry hrx hry
  have hlab : label' = 0 := by
    rw [hdec] at hd'
    cases hd'
    rfl
  subst hlab
  refine ⟨?_, hbody, ?_⟩
  · rw [hv']
    have := hbody ctx.sp2body
    simp only [show { ctx with sp2body := ctx.sp2body } = ctx from rfl] at this
    rw [this]
  · intro h0
    simp [u64, h0]

/-- Witness for C2 (amended) at the bodyOffset=1000 scenario's label-0
pixel (0, 1), stored as uint64(1000) = 1000. -/
theorem C2_label0_pixel_stores_offset_witness :
    processImage ⟨scenarioSp2Body, none, 1000, 32, 1⟩ scenarioImage
      (List.replicate 4 0) 0 = .ok [1100, 1200, 1000, 1100] ∧
    ([1100, 1200, 1000, 1100] : List Nat)[(0 % 1) * (scenarioImage.nx *
      scenarioImage.ny) + 1 * scenarioImage.nx + 0]? = some (u64 1000) ∧
    u64 (1000 : Int) = 1000 :=
  ⟨by decide,
    (C2_label0_pixel_stores_offset ⟨scenarioSp2Body, none, 1000, 32, 1⟩
      scenarioImage (List.replicate 4 0) [1100, 1200, 1000, 1100] 0 0 1
      rfl (by decide) (by decide) (by decide) (by decide) (by decide)).1,
    by decide⟩

/-- C2 counterexample: with bodyOffset=1000 the scenario produces
[1100, 1200, 1000, 1100] — the label-0 pixel is stored as 1000, not 0,
so the claimed array [1100, 1200, 0, 1100] is wrong. -/
theorem C2_offset_hits_background_counterexample :
    processImage ⟨scenarioSp2Body, none, 1000, 32, 1⟩ scenarioImage
      (List.replicate 4 0) 0 = .ok [1100, 1200, 1000, 1100] ∧
    processImage ⟨scenarioSp2Body, none, 1000, 32, 1⟩ scenarioImage
      (List.replicate 4 0) 0 ≠ .ok [1100, 1200, 0, 1100] :=
  ⟨by decide, by decide⟩

theorem putUint64LE_length (buf : List Nat) (si v : Nat) :
    (putUint64LE buf si v).length = buf.length := by
  simp [putUint64LE]

theorem putUint64LE_get_lt (buf : List Nat) (si v j : Nat) (hj : j < si) :
    (putUint64LE buf si v)[j]? = buf[j]? := by
  unfold putUint64LE
  rw [List.getElem?_set_ne (by omega), List.getElem?_set_ne (by omega),
    List.getElem?_set_ne (by omega), List.getElem?_set_ne (by omega),
    List.getElem?_set_ne (by omega), List.getElem?_set_ne (by omega),
    List.getElem?_set_ne (by omega), List.getElem?_set_ne (by omega)]

theorem putUint64LE_get_byte (buf : List Nat) (si v k : Nat) (hk : k < 8)
    (hlen : si + 8 ≤ buf.length) :
    (putUint64LE buf si v)[si + k]? = some ((v >>> (8 * k)) % 256) := by
  unfold putUint64LE
  interval_cases k
  · simp only [Nat.add_zero]
    rw [List.getElem?_set_ne (by omega), List.getElem?_set_ne (by omega),
      List.getElem?_set_ne (by omega), List.getElem?_set_ne (by omega),
      List.getElem?_set_ne (by omega), List.getElem?_set_ne (by omega),
      List.getElem?_set_ne (by omega),
      List.getElem?_set_self (by omega : si < buf.length)]
    norm_num
  · rw [List.getElem?_set_ne (by omega), List.getElem?_set_ne (by omega),
      List.getElem?_set_ne (by omega), List.getElem?_set_ne (by omega),
      List.getElem?_set_ne (by omega), List.getElem?_set_ne (by omega),
      List.getElem?_set_self (by simp only [List.length_set]; omega)]
  · rw [List.getElem?_set_ne (by omega), List.getElem?_set_ne (by omega),
      List.getElem?_set_ne (by omega), List.getElem?_set_ne (by omega),
      List.getElem?_set_ne (by omega),
      List.getElem?_set_self (by simp only [List.length_set]; omega)]
  · rw [List.getElem?_set_ne (by omega), List.getElem?_set_ne (by omega),
      List.getElem?_set_ne (by omega), List.getElem?_set_ne (by omega),
      List.getElem?_set_self (by simp only [List.length_set]; omega)]
  · rw [List.getElem?_set_ne (by omega), List.getElem?_set_ne (by omega),
      List.getElem?_set_ne (by omega),
      List.getElem?_set_self (by simp only [List.length_set]; omega)]
  · rw [List.getElem?_set_ne (by omega), List.getElem?_set_ne (by omega),
      List.getElem?_set_self (by simp only [List.length_set]; omega)]
  · rw [List.getElem?_set_ne (by omega),
      List.getElem?_set_self (by simp only [List.length_set]; omega)]
  · rw [List.getElem?_set_self (by simp only [List.length_set]; omega)]

theorem slabPutX_length (layer : List Nat)
    (nx nxy sxBytes sxyBytes z y ox sy : Nat) :
    ∀ (xs : List Nat) (buf : List Nat),
      (slabPutX layer nx nxy sxBytes sxyBytes z y ox sy xs buf).length =
        buf.length := by
  intro xs
  induction xs with
  | nil =>
    intro buf
    rfl
  | cons sx rest ih =>
    intro buf
    rw [slabPutX, ih, putUint64LE_length]

theorem slabPutX_get_low (layer : List Nat)
    (nx nxy sxBytes sxyBytes z y ox sy : Nat) :
    ∀ (xs : List Nat) (buf : List Nat) (j : Nat),
      (∀ sx ∈ xs, j < z * sxyBytes + sy * sxBytes + sx * 8) →
      (slabPutX layer nx nxy sxBytes sxyBytes z y ox sy xs buf)[j]? =
        buf[j]? := by
  intro xs
  induction xs with
  | nil =>
    intro buf j _
    rfl
  | cons sx rest ih =>
    intro buf j hlow
    rw [slabPutX, ih _ j (fun sx' hm => hlow sx' (by simp [hm])),
      putUint64LE_get_lt _ _ _ _ (hlow sx (by simp))]

theorem slabPutX_get_byte (layer : List Nat)
    (nx nxy sxBytes sxyBytes z y ox sy : Nat) :
    ∀ (xs : List Nat) (buf : List Nat),
      xs.Pairwise (· < ·) →
      ∀ sx ∈ xs, ∀ k, k < 8 →
      z * sxyBytes + sy * sxBytes + sx * 8 + 8 ≤ buf.length →
      (slabPutX layer nx nxy sxBytes sxyBytes z y ox sy xs buf)[
          z * sxyBytes + sy * sxBytes + sx * 8 + k]? =
        some (((layer.getD (z * nxy + y * nx + (ox + sx)) 0) >>> (8 * k))
          % 256) := by
  intro xs
  induction xs with
  | nil =>
    intro buf _ sx hm
    exact absurd hm (by simp)
  | cons sx0 rest ih =>
    intro buf hpw sx hm k hk hlen
    obtain ⟨hhead, htail⟩ := List.pairwise_cons.mp hpw
    rcases List.mem_cons.mp hm with h1 | h1
    · subst h1
      rw [slabPutX]
      rw [slabPutX_get_low layer nx nxy sxBytes sxyBytes z y ox sy rest _ _
        (by
          intro sx' hm'
          have := hhead sx' hm'
          have h8 : sx * 8 + 8 ≤ sx' * 8 := by omega
          omega)]
      exact putUint64LE_get_byte buf _ _ k hk hlen
    · rw [slabPutX]
      rw [ih _ htail sx h1 k hk (by rw [putUint64LE_length]; exact hlen)]

theorem slabPutY_length (layer : List Nat)
    (nx nxy sxBytes sxyBytes z oy ox endX : Nat) :
    ∀ (ys : List Nat) (buf : List Nat),
      (slabPutY layer nx nxy sxBytes sxyBytes z oy ox endX ys buf).length =
        buf.length := by
  intro ys
  induction ys with
  | nil =>
    intro buf
    rfl
  | cons sy rest ih =>
    intro buf
    rw [slabPutY, ih, slabPutX_length]

theorem slabPutY_get_low (layer : List Nat)
    (nx nxy sxBytes sxyBytes z oy ox endX : Nat) :
    ∀ (ys : List Nat) (buf : List Nat) (j : Nat),
      (∀ sy ∈ ys, j < z * sxyBytes + sy * sxBytes) →
      (slabPutY layer nx nxy sxBytes sxyBytes z oy ox endX ys buf)[j]? =
        buf[j]? := by
  intro ys
  induction ys with
  | nil =>
    intro buf j _
    rfl
  | cons sy rest ih =>
    intro buf j hlow
    rw [slabPutY, ih _ j (fun sy' hm => hlow sy' (by simp [hm])),
      slabPutX_get_low layer nx nxy sxBytes sxyBytes z (oy + sy) ox sy _ _ _
        (by
          intro sx hm
          have := hlow sy (by simp)
          omega)]

theorem slabPutY_get_byte (layer : List Nat)
    (nx nxy sxBytes sxyBytes z oy ox endX : Nat)
    (hw : (endX - ox) * 8 ≤ sxBytes) :
    ∀ (ys : List Nat) (buf : List Nat),
      ys.Pairwise (· < ·) →
      ∀ sy ∈ ys, ∀ sx k, sx < endX - ox → k < 8 →
      z * sxyBytes + sy * sxBytes + sxBytes ≤ buf.length →
      (slabPutY layer nx nxy sxBytes sxyBytes z oy ox endX ys buf)[
          z * sxyBytes + sy * sxBytes + sx * 8 + k]? =
        some (((layer.getD (z * nxy + (oy + sy) * nx + (ox + sx)) 0)
          >>> (8 * k)) % 256) := by
  intro ys
  induction ys with
  | nil =>
    intro buf _ sy hm
    exact absurd hm (by simp)
  | cons sy0 rest ih =>
    intro buf hpw sy hm sx k hsx hk hlen
    obtain ⟨hhead, htail⟩ := List.pairwise_cons.mp hpw
    have hsx8 : sx * 8 + 8 ≤ (endX - ox) * 8 := by omega
    rcases List.mem_cons.mp hm with h1 | h1
    · subst h1
      rw [slabPutY]
      rw [slabPutY_get_low layer nx nxy sxBytes sxyBytes z oy ox endX rest _ _
        (by
          intro sy' hm'
          have := hhead sy' hm'
          have h1 : sy * sxBytes + sxBytes ≤ sy' * sxBytes := by
            have : (sy + 1) * sxBytes ≤ sy' * sxBytes :=
              Nat.mul_le_mul_right _ (by omega)
            simpa [Nat.succ_mul] using this
          omega)]
      rw [slabPutX_get_byte layer nx nxy sxBytes sxyBytes z (oy + sy) ox sy
        (List.range (endX - ox)) buf (List.pairwise_lt_range _) sx
        (List.mem_range.mpr hsx) k hk (by omega)]
    · rw [slabPutY]
      rw [ih _ htail sy h1 sx k hsx hk (by rw [slabPutX_length]; exact hlen)]

theorem slabPutZ_length (layer : List Nat)
    (nx nxy sxBytes sxyBytes oy ox endX endY : Nat) :
    ∀ (zs : List Nat) (buf : List Nat),
      (slabPutZ layer nx nxy sxBytes sxyBytes oy ox endX endY zs buf).length =
        buf.length := by
  intro zs
  induction zs with
  | nil =>
    intro buf
    rfl
  | cons z rest ih =>
    intro buf
    rw [slabPutZ, ih, slabPutY_length]

theorem slabPutZ_get_low (layer : List Nat)
    (nx nxy sxBytes sxyBytes oy ox endX endY : Nat) :
    ∀ (zs : List Nat) (buf : List Nat) (j : Nat),
      (∀ z ∈ zs, j < z * sxyBytes) →
      (slabPutZ layer nx nxy sxBytes sxyBytes oy ox endX endY zs buf)[j]? =
        buf[j]? := by
  intro zs
  induction zs with
  | nil =>
    intro buf j _
    rfl
  | cons z rest ih =>
    intro buf j hlow
    rw [slabPutZ, ih _ j (fun z' hm => hlow z' (by simp [hm])),
      slabPutY_get_low layer nx nxy sxBytes sxyBytes z oy ox endX _ _ _
        (by
          intro sy hm
          have := hlow z (by simp)
          omega)]

theorem slabPutZ_get_byte (layer : List Nat)
    (nx nxy sxBytes sxyBytes oy ox endX endY : Nat)
    (hw : (endX - ox) * 8 ≤ sxBytes) (hh : (endY - oy) * sxBytes ≤ sxyBytes) :
    ∀ (zs : List Nat) (buf : List Nat),
      zs.Pairwise (· < ·) →
      ∀ z ∈ zs, ∀ sy sx k, sy < endY - oy → sx < endX - ox → k < 8 →
      z * sxyBytes + sxyBytes ≤ buf.length →
      (slabPutZ layer nx nxy sxBytes sxyBytes oy ox endX endY zs buf)[
          z * sxyBytes + sy * sxBytes + sx * 8 + k]? =
        some (((layer.getD (z * nxy + (oy + sy) * nx + (ox + sx)) 0)
          >>> (8 * k)) % 256) := by
  intro zs
  induction zs with
  | nil =>
    intro buf _ z hm
    exact absurd hm (by simp)
  | cons z0 rest ih =>
    intro buf hpw z hm sy sx k hsy hsx hk hlen
    obtain ⟨hhead, htail⟩ := List.pairwise_cons.mp hpw
    have hsyB : sy * sxBytes + sxBytes ≤ (endY - oy) * sxBytes := by
      have : (sy + 1) * sxBytes ≤ (endY - oy) * sxBytes :=
        Nat.mul_le_mul_right _ (by omega)
      simpa [Nat.succ_mul] using this
    have hsx8 : sx * 8 + 8 ≤ (endX - ox) * 8 := by omega
    rcases List.mem_cons.mp hm with h1 | h1
    · subst h1
      rw [slabPutZ]
      rw [slabPutZ_get_low layer nx nxy sxBytes sxyBytes oy ox endX endY rest
        _ _ (by
          intro z' hm'
          have := hhead z' hm'
          have h1 : z * sxyBytes + sxyBytes ≤ z' * sxyBytes := by
            have : (z + 1) * sxyBytes ≤ z' * sxyBytes :=
              Nat.mul_le_mul_right _ (by omega)
            simpa [Nat.succ_mul] using this
          omega)]
      rw [slabPutY_get_byte layer nx nxy sxBytes sxyBytes z oy ox endX hw
        (List.range (endY - oy)) buf (List.pairwise_lt_range _) sy
        (List.mem_range.mpr hsy) sx k hsx hk (by omega)]
    · rw [slabPutZ]
      rw [ih _ htail z h1 sy sx k hsy hsx hk
        (by rw [slabPutY_length]; exact hlen)]

theorem nat_div_eq_iff_between (x j s : Nat) (hs : 1 ≤ s) :
    x / s = j ↔ (j * s ≤ x ∧ x < j * s + s) := by
  constructor
  · intro h
    subst h
    refine ⟨Nat.div_mul_le_self x s, ?_⟩
    have h1 := Nat.div_add_mod x s
    rw [Nat.mul_comm] at h1
    have h2 : x % s < s := Nat.mod_lt _ (by omega)
    omega
  · intro ⟨h1, h2⟩
    have hle : j ≤ x / s := (Nat.le_div_iff_mul_le (by omega)).mpr h1
    have hlt : x / s < j + 1 := (Nat.div_lt_iff_lt_mul (by omega)).mpr
      (by rw [Nat.succ_mul]; omega)
    omega

theorem filter_range_eq_single (c : Nat) (p : Nat → Bool)
    (hp : ∀ j, p j = true ↔ j = c) :
    ∀ q, c < q → (List.range q).filter p = [c] := by
  intro q
  induction q with
  | zero =>
    intro h
    exact absurd h (by omega)
  | succ n ih =>
    intro hc
    rw [List.range_succ, List.filter_append]
    by_cases h : c < n
    · rw [ih h]
      have hpn : p n = false := by
        rw [Bool.eq_false_iff]
        intro hpn
        have := (hp n).mp hpn
        omega
      simp [hpn]
    · have hcn : c = n := by omega
      subst hcn
      have h0 : (List.range c).filter p = [] := by
        rw [List.filter_eq_nil_iff]
        intro a ha
        rw [List.mem_range] at ha
        intro hpa
        have := (hp a).mp hpa
        omega
      rw [h0]
      simp [List.filter, (hp c).mpr rfl]

theorem tileOrigins_cover_once (extent step x : Nat) (hs : 1 ≤ step)
    (hx : x < extent) :
    (tileOrigins extent step).filter
      (fun o => decide (o ≤ x ∧ x < o + step)) = [step * (x / step)] := by
  unfold tileOrigins
  rw [List.filter_map]
  have hq : x / step < (extent + step - 1) / step := by
    have hm := Nat.div_add_mod (extent + step - 1) step
    rw [Nat.mul_comm] at hm
    have hmod : (extent + step - 1) % step < step := Nat.mod_lt _ (by omega)
    have hceil : extent ≤ (extent + step - 1) / step * step := by
      omega
    rw [Nat.div_lt_iff_lt_mul (by omega)]
    omega
  have hfil : (List.range ((extent + step - 1) / step)).filter
      ((fun o => decide (o ≤ x ∧ x < o + step)) ∘ (fun j => j * step)) =
      [x / step] := by
    apply filter_range_eq_single
    · intro j
      simp only [Function.comp]
      rw [decide_eq_true_iff]
      constructor
      · intro ⟨h1, h2⟩
        exact ((nat_div_eq_iff_between x j step hs).mpr ⟨h1, h2⟩).symm
      · intro h
        have := (nat_div_eq_iff_between x j step hs).mp h.symm
        exact ⟨this.1, this.2⟩
    · exact hq
  rw [hfil]
  simp [Nat.mul_comm]

/-- C8: `writeLayer`'s in-plane tiling covers each coordinate below the
layer extent exactly once (the unique tile origin is the largest
multiple of the slab dimension not exceeding it), the serialized slab
buffer always has the full `slabZ*slabY*slabX*8` size, and the byte at
offset `z*slabY*slabX*8 + sy*slabX*8 + sx*8 + k` of the tile at
(ox, oy) is byte k of the little-endian encoding of the layer voxel
`layer.buf[z*nx*ny + (oy+sy)*nx + (ox+sx)]`, for every in-range
(z, sy, sx) of the clipped tile. -/
theorem C8_writeLayer_tiling_serialization (cfg : SlabCfg)
    (layer : List Nat) (nx ny : Nat) (hsx : 1 ≤ cfg.slabX)
    (hsy : 1 ≤ cfg.slabY) :
    (∀ x, x < nx → (tileOrigins nx cfg.slabX).filter
      (fun o => decide (o ≤ x ∧ x < o + cfg.slabX)) =
        [cfg.slabX * (x / cfg.slabX)]) ∧
    (∀ y, y < ny → (tileOrigins ny cfg.slabY).filter
      (fun o => decide (o ≤ y ∧ y < o + cfg.slabY)) =
        [cfg.slabY * (y / cfg.slabY)]) ∧
    (∀ ox oy, (fillSlab cfg layer nx ny ox oy).length =
      cfg.slabZ * (cfg.slabY * (cfg.slabX * 8))) ∧
    (∀ ox oy z sy sx k, z < cfg.slabZ → sy < min (oy + cfg.slabY) ny - oy →
      sx < min (ox + cfg.slabX) nx - ox → k < 8 →
      (fillSlab cfg layer nx ny ox oy)[
          z * (cfg.slabY * (cfg.slabX * 8)) + sy * (cfg.slabX * 8) + sx * 8
            + k]? =
        some (((layer.getD (z * (nx * ny) + (oy + sy) * nx + (ox + sx)) 0)
          >>> (8 * k)) % 256)) := by
  refine ⟨?_, ?_, ?_, ?_⟩
  · intro x hx
    exact tileOrigins_cover_once nx cfg.slabX x hsx hx
  · intro y hy
    exact tileOrigins_cover_once ny cfg.slabY y hsy hy
  · intro ox oy
    unfold fillSlab
    rw [slabPutZ_length]
    simp
  · intro ox oy z sy sx k hz hsyb hsxb hk
    unfold fillSlab
    have hw : (min (ox + cfg.slabX) nx - ox) * 8 ≤ cfg.slabX * 8 := by
      have : min (ox + cfg.slabX) nx - ox ≤ cfg.slabX := by omega
      exact Nat.mul_le_mul_right _ this
    have hh : (min (oy + cfg.slabY) ny - oy) * (cfg.slabX * 8) ≤
        cfg.slabY * (cfg.slabX * 8) := by
      have : min (oy + cfg.slabY) ny - oy ≤ cfg.slabY := by omega
      exact Nat.mul_le_mul_right _ this
    rw [slabPutZ_get_byte layer nx (nx * ny) (cfg.slabX * 8)
      (cfg.slabY * (cfg.slabX * 8)) oy ox (min (ox + cfg.slabX) nx)
      (min (oy + cfg.slabY) ny) hw hh (List.range cfg.slabZ)
      (List.replicate (cfg.slabZ * (cfg.slabY * (cfg.slabX * 8))) 0)
      (List.pairwise_lt_range _) z (List.mem_range.mpr hz) sy sx k hsyb hsxb
      hk (by
        rw [List.length_replicate]
        have : (z + 1) * (cfg.slabY * (cfg.slabX * 8)) ≤
            cfg.slabZ * (cfg.slabY * (cfg.slabX * 8)) :=
          Nat.mul_le_mul_right _ (by omega)
        simpa [Nat.succ_mul] using this)]

/-- Witness for C8 at a concrete 3x2 layer with 2x2x1 slabs: the edge
tile at ox = 2 is clipped, and byte offsets and tile coverage are
checked both through the theorem and by evaluation. -/
theorem C8_writeLayer_tiling_serialization_witness :
    ((1 : Nat) ≤ 2) ∧
    (tileOrigins 3 2).filter (fun o => decide (o ≤ 2 ∧ 2 < o + 2)) = [2] ∧
    (fillSlab ⟨2, 2, 1⟩ [1, 2, 3, 4, 5, 6] 3 2 2 0)[0]? = some 3 ∧
    (fillSlab ⟨2, 2, 1⟩ [1, 2, 3, 4, 5, 6] 3 2 2 0)[16]? = some 6 :=
  ⟨by decide,
    by
      have h := (C8_writeLayer_tiling_serialization ⟨2, 2, 1⟩
        [1, 2, 3, 4, 5, 6] 3 2 (by decide) (by decide)).1 2 (by decide)
      simpa using h,
    by decide, by decide⟩

end RavelerExporter
